import Mathlib

/-! TokenSorter: IR calibration engine and master/slave drive controller.

A shallow embedding of `sketch/Calibrator.h` and
`sketch/MovementInterfaceMasterSlave.h`, and the properties of the
specification proved over it.

Modelling conventions.

* The hardware is an oracle (`World`): every analog channel, the stop button,
  the clock and every encoder is an infinite sequence of values, and the mutable
  part (`Hw`) counts how many values of each sequence were consumed and logs the
  movement commands issued.  A statement quantified over every `World` holds
  for every sequence of readings the robot can meet.
* `int` and `long` are `Int`.  The analog inputs are 10-bit, so no expression of
  the calibrator comes near the range of `int`; signed overflow is not modelled.
* `double` and `float` arithmetic is exact arithmetic over `ℚ`.
* A `while` loop takes a fuel argument: the number of executions of its body
  that are allowed.  A loop that needs more returns an unfinished run.
* `Serial.print` logging and `delay` calls are left out.
-/

namespace TokenSorter

/-! ## Hardware model -/

/-- Analog channels of `IRPins.h` read by the calibrator. -/
inductive Pin
  | IR_L1 | IR_L2 | IR_R1 | IR_R2 | IR_BL | IR_BR
  deriving DecidableEq, Repr

/-- The constants `FORWARD`, `LEFT` and `RIGHT` of `MiscDefinitions.h`: a movement
type, a pivot direction, or (for `LEFT` and `RIGHT`) a motor index. -/
inductive Direction
  | FORWARD | LEFT | RIGHT
  deriving DecidableEq, Repr

/-- Calls made on the movement and motor collaborators. -/
inductive Cmd
  | smallPivot (direction : Direction) (magnitude : Int)
  | nudge (left right : Int)
  | setMotorPower (motor : Direction) (power : Int) (direction : Int)
  deriving DecidableEq, Repr

/-- The environment: what each hardware read returns, by the index of the read. -/
structure World where
  /-- Value of the n-th `analogRead` of a channel. -/
  analog : Pin → Nat → Int
  /-- Value of the n-th `buttons->getStopState()`. -/
  stopState : Nat → Char
  /-- Value of the n-th `millis()`. -/
  clock : Nat → Int
  /-- Value of the n-th `readEncoder` of a motor. -/
  encoder : Direction → Nat → Int

/-- Number of reads made so far of each analog channel. -/
structure PinCounts where
  l1 : Nat
  l2 : Nat
  r1 : Nat
  r2 : Nat
  bl : Nat
  br : Nat
  deriving DecidableEq, Repr

/-- Reads made so far of one channel. -/
def PinCounts.get (k : PinCounts) : Pin → Nat
  | Pin.IR_L1 => k.l1
  | Pin.IR_L2 => k.l2
  | Pin.IR_R1 => k.r1
  | Pin.IR_R2 => k.r2
  | Pin.IR_BL => k.bl
  | Pin.IR_BR => k.br

/-- The counts after `n` more reads of one channel. -/
def PinCounts.add (k : PinCounts) (p : Pin) (n : Nat) : PinCounts :=
  match p with
  | Pin.IR_L1 => { k with l1 := k.l1 + n }
  | Pin.IR_L2 => { k with l2 := k.l2 + n }
  | Pin.IR_R1 => { k with r1 := k.r1 + n }
  | Pin.IR_R2 => { k with r2 := k.r2 + n }
  | Pin.IR_BL => { k with bl := k.bl + n }
  | Pin.IR_BR => { k with br := k.br + n }

/-- Number of reads made so far of each encoder. -/
structure EncoderCounts where
  forward : Nat
  left : Nat
  right : Nat
  deriving DecidableEq, Repr

/-- Reads made so far of one encoder. -/
def EncoderCounts.get (k : EncoderCounts) : Direction → Nat
  | Direction.FORWARD => k.forward
  | Direction.LEFT => k.left
  | Direction.RIGHT => k.right

/-- The counts after one more read of one encoder. -/
def EncoderCounts.next (k : EncoderCounts) (motor : Direction) : EncoderCounts :=
  match motor with
  | Direction.FORWARD => { k with forward := k.forward + 1 }
  | Direction.LEFT => { k with left := k.left + 1 }
  | Direction.RIGHT => { k with right := k.right + 1 }

/-- The mutable hardware state: reads consumed so far and commands issued so far. -/
structure Hw where
  analogReads : PinCounts
  stopPolls : Nat
  clockReads : Nat
  encoderReads : EncoderCounts
  cmds : List Cmd
  deriving DecidableEq, Repr

/-- One `analogRead(whichPin)`. -/
def analogRead (w : World) (whichPin : Pin) (h : Hw) : Int × Hw :=
  (w.analog whichPin (h.analogReads.get whichPin),
   { h with analogReads := h.analogReads.add whichPin 1 })

/-- The hardware state after `n` more reads of channel `p`. -/
def readsAfter (h : Hw) (p : Pin) (n : Nat) : Hw :=
  { h with analogReads := h.analogReads.add p n }

/-- One `buttons->getStopState()`. -/
def getStopState (w : World) (h : Hw) : Char × Hw :=
  (w.stopState h.stopPolls, { h with stopPolls := h.stopPolls + 1 })

/-- A call on the movement or motor collaborator: the command is logged. -/
def issue (c : Cmd) (h : Hw) : Hw :=
  { h with cmds := h.cmds ++ [c] }

/-! ## Calibrator.h -/

def SAMPLE_COUNT : Nat := 300
def BACK_CALIBRATION_THRESHOLD : Int := 5
def THRESHOLD_FOR_BIG_NUDGE : Int := 30
def SIDE_PIVOT_THRESHOLD : Int := 8
def THRESHOLD_FOR_BIG_PIVOT : Int := 50
def THRESHOLD_FOR_SIDE_DISTANCE : Int := 100
/-- The constant 0.2, taken as the rational 1/5. -/
def LEFT_CORRECT_MULTIPLIER : ℚ := 1 / 5

/-- Conversion of a `double` to an integer type: truncation toward zero. -/
def truncToInt (y : ℚ) : Int := Int.tdiv y.num y.den

/-- Arduino `round(x)`, `((x)>=0?(long)((x)+0.5):(long)((x)-0.5))`: the nearest
integer, halves away from zero (the value of C `round` as well). -/
def roundToLong (x : ℚ) : Int :=
  if x ≥ 0 then truncToInt (x + 1 / 2) else truncToInt (x - 1 / 2)

/-- The `for` loop of `getIRValue`: `i` reads left, `total` accumulated. -/
def getIRValueLoop (w : World) (whichPin : Pin) : Nat → Int → Hw → Int × Hw
  | 0, total, h => (total, h)
  | i + 1, total, h =>
    let r := analogRead w whichPin h
    getIRValueLoop w whichPin i (total + r.1) r.2

/-- Model of `getIRValue`: `SAMPLE_COUNT` reads, `total / SAMPLE_COUNT`. -/
def getIRValue (w : World) (whichPin : Pin) (h : Hw) : Int × Hw :=
  let r := getIRValueLoop w whichPin SAMPLE_COUNT 0 h
  (Int.tdiv r.1 SAMPLE_COUNT, r.2)

/-- Model of `getDifferenceBetweenIRs`. -/
def getDifferenceBetweenIRs (w : World) (IRPinLeftOfWheel IRPinRightOfWheel : Pin)
    (differenceOffsetForThisSide : Int) (h : Hw) : Int × Hw :=
  let leftReading := getIRValue w IRPinLeftOfWheel h
  let rightReading := getIRValue w IRPinRightOfWheel leftReading.2
  (leftReading.1 - rightReading.1 + differenceOffsetForThisSide, rightReading.2)

/-- Outcome of one evaluation of the `while` condition of `sideCalibrationPivotIR`. -/
structure SideCheck where
  /-- Value of the condition: the body runs next. -/
  enter : Bool
  /-- The local `difference` after the evaluation. -/
  difference : Int
  hw : Hw

/-- Outcome of `abs(difference = getDifferenceBetweenIRs(..))`. -/
structure AbsEval where
  /-- Value of the `abs` expression. -/
  value : Int
  /-- The local `difference` after the evaluation. -/
  difference : Int
  hw : Hw

/-- The expression `abs(difference = getDifferenceBetweenIRs(..))` of line 70.
`abs` comes from `Arduino.h`, which is not part of the repository.  The AVR
core defines it as `((x)>0?(x):-(x))`, which evaluates the assignment twice:
the sensors are measured twice, the first measurement decides the sign and
`difference` keeps the second one.  Other cores provide a function.
`absTwice` selects the variant. -/
def absOfDifference (w : World) (absTwice : Bool) (IRPinLeftOfWheel IRPinRightOfWheel : Pin)
    (differenceOffsetForThisSide : Int) (h : Hw) : AbsEval :=
  let d1 := getDifferenceBetweenIRs w IRPinLeftOfWheel IRPinRightOfWheel
    differenceOffsetForThisSide h
  if absTwice then
    let d2 := getDifferenceBetweenIRs w IRPinLeftOfWheel IRPinRightOfWheel
      differenceOffsetForThisSide d1.2
    { value := if d1.1 > 0 then d2.1 else -d2.1, difference := d2.1, hw := d2.2 }
  else
    { value := |d1.1|, difference := d1.1, hw := d1.2 }

/-- The condition `abs(..) > SIDE_PIVOT_THRESHOLD && buttons->getStopState() == '0'`
(lines 70-73).  The stop button is polled only when the first conjunct holds. -/
def sideLoopCondition (w : World) (absTwice : Bool) (IRPinLeftOfWheel IRPinRightOfWheel : Pin)
    (differenceOffsetForThisSide : Int) (h : Hw) : SideCheck :=
  let a := absOfDifference w absTwice IRPinLeftOfWheel IRPinRightOfWheel
    differenceOffsetForThisSide h
  if a.value > SIDE_PIVOT_THRESHOLD then
    let s := getStopState w a.hw
    { enter := s.1 == '0', difference := a.difference, hw := s.2 }
  else
    { enter := false, difference := a.difference, hw := a.hw }

/-- The pivot chosen by the body of the loop (lines 78-93). -/
def sidePivot (difference : Int) : Cmd :=
  if difference > THRESHOLD_FOR_BIG_PIVOT then Cmd.smallPivot Direction.RIGHT 2
  else if difference < 0 - THRESHOLD_FOR_BIG_PIVOT then Cmd.smallPivot Direction.LEFT 2
  else if difference > 0 then Cmd.smallPivot Direction.RIGHT 1
  else Cmd.smallPivot Direction.LEFT 1

/-- A run of the `while` loop of `sideCalibrationPivotIR`. -/
structure SideRun where
  /-- The loop condition was found false within the fuel. -/
  finished : Bool
  /-- The value of `difference` in each execution of the body, in order. -/
  differences : List Int
  hw : Hw

/-- The `while` loop of `sideCalibrationPivotIR` (lines 70-96).  The local
`threshold` is written by the body and read nowhere; it is left out. -/
def sideLoop (w : World) (absTwice : Bool) (IRPinLeftOfWheel IRPinRightOfWheel : Pin)
    (differenceOffsetForThisSide : Int) : Nat → Hw → SideRun
  | fuel, h =>
    let c := sideLoopCondition w absTwice IRPinLeftOfWheel IRPinRightOfWheel
      differenceOffsetForThisSide h
    if c.enter then
      match fuel with
      | 0 => { finished := false, differences := [], hw := c.hw }
      | fuel + 1 =>
        let rest := sideLoop w absTwice IRPinLeftOfWheel IRPinRightOfWheel
          differenceOffsetForThisSide fuel (issue (sidePivot c.difference) c.hw)
        { rest with differences := c.difference :: rest.differences }
    else
      { finished := true, differences := [], hw := c.hw }

/-- Model of `sideCalibrationPivotIR`; `none` when the loop did not finish
within the fuel. -/
def sideCalibrationPivotIR (w : World) (absTwice : Bool)
    (IRPinLeftOfWheel IRPinRightOfWheel : Pin)
    (differenceOffsetForThisSide goodDistanceForThisSide : Int)
    (fuel : Nat) (h : Hw) : Option (Bool × Hw) :=
  let run := sideLoop w absTwice IRPinLeftOfWheel IRPinRightOfWheel
    differenceOffsetForThisSide fuel h
  if run.finished then
    let a := getIRValue w IRPinLeftOfWheel run.hw
    let b := getIRValue w IRPinRightOfWheel a.2
    let distance := Int.tdiv (a.1 + b.1) 2
    some (decide (|distance - goodDistanceForThisSide| < THRESHOLD_FOR_SIDE_DISTANCE), b.2)
  else none

/-- The calibration fields of the class `Calibrator`, with the hardware its
collaborators `movementInterface` and `buttons` act on. -/
structure Calibrator where
  leftCalibrationOffset : Int
  rightCalibrationOffset : Int
  goodDistanceForLeft : Int
  goodDistanceForRight : Int
  leftDistanceAfterOneForward : Int
  backLeftCalibrated : Int
  backRightCalibrated : Int
  hw : Hw
  deriving DecidableEq, Repr

/-- Conversion of a C++ `bool` to `int`. -/
def boolToInt (b : Bool) : Int := if b then 1 else 0

/-- The value given to `needToMoveLeft` (lines 126-143). -/
def needToMoveLeft (leftReading backLeftCalibrated : Int) : Int :=
  if leftReading - BACK_CALIBRATION_THRESHOLD > backLeftCalibrated then
    1 + boolToInt (decide (leftReading - backLeftCalibrated > THRESHOLD_FOR_BIG_NUDGE))
  else if leftReading + BACK_CALIBRATION_THRESHOLD < backLeftCalibrated then
    -1 - boolToInt (decide (backLeftCalibrated - leftReading > THRESHOLD_FOR_BIG_NUDGE))
  else 0

/-- The value given to `leftGood` (lines 126-143). -/
def leftGood (leftReading backLeftCalibrated : Int) : Bool :=
  if leftReading - BACK_CALIBRATION_THRESHOLD > backLeftCalibrated then false
  else if leftReading + BACK_CALIBRATION_THRESHOLD < backLeftCalibrated then false
  else true

/-- The value given to `needToMoveRight` (lines 154-171). -/
def needToMoveRight (rightReading backRightCalibrated : Int) : Int :=
  if rightReading - BACK_CALIBRATION_THRESHOLD > backRightCalibrated then
    1 + boolToInt (decide (rightReading - backRightCalibrated > THRESHOLD_FOR_BIG_NUDGE))
  else if rightReading + BACK_CALIBRATION_THRESHOLD < backRightCalibrated then
    -1 - boolToInt (decide (backRightCalibrated - rightReading > THRESHOLD_FOR_BIG_NUDGE))
  else 0

/-- The value given to `rightGood` (lines 154-171). -/
def rightGood (rightReading backRightCalibrated : Int) : Bool :=
  if rightReading - BACK_CALIBRATION_THRESHOLD > backRightCalibrated then false
  else if rightReading + BACK_CALIBRATION_THRESHOLD < backRightCalibrated then false
  else true

/-- The first part of the body of the loop of `backCalibrationIR` (lines 121-176):
both tiers are computed and one `nudge` is issued with them. -/
def backNudge (backLeftCalibrated backRightCalibrated leftReading rightReading : Int)
    (h : Hw) : Hw :=
  issue (Cmd.nudge (needToMoveLeft leftReading backLeftCalibrated)
    (needToMoveRight rightReading backRightCalibrated)) h

/-- What one execution of the body of the loop of `backCalibrationIR` worked on. -/
structure BackIteration where
  /-- Value of `leftReading` in this execution. -/
  leftReading : Int
  /-- Value of `rightReading` in this execution. -/
  rightReading : Int
  /-- The stop state polled after the nudge; `none` when it was not polled. -/
  stop : Option Char
  deriving DecidableEq, Repr

/-- A run of the `while` loop of `backCalibrationIR`. -/
structure BackRun where
  /-- The flag `finished` was found set within the fuel. -/
  finished : Bool
  /-- The executions of the body, in order. -/
  iterations : List BackIteration
  hw : Hw

/-- The `while (! finished)` loop of `backCalibrationIR` (lines 119-188).
`finished` is false at entry, so the body runs before any test of the readings
or of the stop button; the button is polled only when a side is not good; the
sensors are read again at the end of every execution of the body, the last one
included.  The local `threshold` is written and read nowhere; it is left out. -/
def backLoop (w : World) (backLeftCalibrated backRightCalibrated : Int) :
    Nat → Int → Int → Hw → BackRun
  | 0, _, _, h => { finished := false, iterations := [], hw := h }
  | fuel + 1, leftReading, rightReading, h =>
    let h1 := backNudge backLeftCalibrated backRightCalibrated leftReading rightReading h
    let fin : Bool × Option Char × Hw :=
      if rightGood rightReading backRightCalibrated && leftGood leftReading backLeftCalibrated
      then (true, none, h1)
      else
        let s := getStopState w h1
        (s.1 == '1', some s.1, s.2)
    let l := getIRValue w Pin.IR_BL fin.2.2
    let r := getIRValue w Pin.IR_BR l.2
    let it : BackIteration :=
      { leftReading := leftReading, rightReading := rightReading, stop := fin.2.1 }
    if fin.1 then { finished := true, iterations := [it], hw := r.2 }
    else
      let rest := backLoop w backLeftCalibrated backRightCalibrated fuel l.1 r.1 r.2
      { rest with iterations := it :: rest.iterations }

/-- Model of `backCalibrationIR`; `none` when the loop did not finish within
the fuel. -/
def backCalibrationIR (w : World) (fuel : Nat) (c : Calibrator) : Option Calibrator :=
  let l := getIRValue w Pin.IR_BL c.hw
  let r := getIRValue w Pin.IR_BR l.2
  let run := backLoop w c.backLeftCalibrated c.backRightCalibrated fuel l.1 r.1 r.2
  if run.finished then some { c with hw := run.hw } else none

/-- Text of `String((int)b)` for a `bool`. -/
def boolToString (b : Bool) : String := if b then "1" else "0"

/-- The branch `side == "L"` of `calibrateWithIR` (lines 280-281).  The calls
`calibrateWithIR("L")` made by `leftToCorrectBack` and `leftToCorrectLeft` have
the literal selector `"L"` and so are calls of this branch. -/
def calibrateWithIR_L (w : World) (absTwice : Bool) (fuel : Nat) (c : Calibrator) :
    Option (String × Calibrator) :=
  (sideCalibrationPivotIR w absTwice Pin.IR_L1 Pin.IR_L2 c.leftCalibrationOffset
    c.goodDistanceForLeft fuel c.hw).map
    fun r => (boolToString r.1, { c with hw := r.2 })

/-- The expression `(getIRValue(IR_L1) + getIRValue(IR_L2)) / 2`. -/
def leftMeanDistance (w : World) (h : Hw) : Int × Hw :=
  let a := getIRValue w Pin.IR_L1 h
  let b := getIRValue w Pin.IR_L2 a.2
  (Int.tdiv (a.1 + b.1) 2, b.2)

/-- Model of `leftToCorrectBack`; `none` when the side alignment did not finish
within the fuel. -/
def leftToCorrectBack (w : World) (absTwice : Bool) (fuel : Nat) (c : Calibrator) :
    Option Calibrator :=
  let m := leftMeanDistance w c.hw
  let c1 := { c with leftDistanceAfterOneForward := m.1, hw := m.2 }
  match calibrateWithIR_L w absTwice fuel c1 with
  | none => none
  | some (_, c2) =>
    let amountToChange : Int := roundToLong (LEFT_CORRECT_MULTIPLIER *
      ((c2.leftDistanceAfterOneForward - c2.goodDistanceForLeft : Int) : ℚ) / 2)
    let c3 := { c2 with
      backLeftCalibrated := c2.backLeftCalibrated - amountToChange,
      backRightCalibrated := c2.backRightCalibrated + amountToChange }
    let m2 := leftMeanDistance w c3.hw
    some { c3 with leftDistanceAfterOneForward := m2.1, hw := m2.2 }

/-- Model of `leftToCorrectLeft`; `none` when the side alignment did not finish
within the fuel. -/
def leftToCorrectLeft (w : World) (absTwice : Bool) (fuel : Nat) (c : Calibrator) :
    Option Calibrator :=
  let m := leftMeanDistance w c.hw
  let leftDistanceAfterTwoForwards := m.1
  let c1 := { c with
    leftCalibrationOffset := c.leftCalibrationOffset + roundToLong (LEFT_CORRECT_MULTIPLIER *
      ((leftDistanceAfterTwoForwards - c.leftDistanceAfterOneForward : Int) : ℚ)),
    hw := m.2 }
  (calibrateWithIR_L w absTwice fuel c1).map fun r => r.2

/-- Model of `getLeftCalibrationValuesForIRSensors`. -/
def getLeftCalibrationValuesForIRSensors (w : World) (c : Calibrator) : Calibrator :=
  let d := getDifferenceBetweenIRs w Pin.IR_L1 Pin.IR_L2 0 c.hw
  let a := getIRValue w Pin.IR_L1 d.2
  let b := getIRValue w Pin.IR_L2 a.2
  { c with
    leftCalibrationOffset := 0 - d.1,
    goodDistanceForLeft := Int.tdiv (a.1 + b.1) 2,
    hw := b.2 }

/-- Model of `getRightCalibrationValuesForIRSensors`. -/
def getRightCalibrationValuesForIRSensors (w : World) (c : Calibrator) : Calibrator :=
  let d := getDifferenceBetweenIRs w Pin.IR_R2 Pin.IR_R1 0 c.hw
  let a := getIRValue w Pin.IR_R1 d.2
  let b := getIRValue w Pin.IR_R2 a.2
  { c with
    rightCalibrationOffset := 0 - d.1,
    goodDistanceForRight := Int.tdiv (a.1 + b.1) 2,
    hw := b.2 }

/-- Model of `calibrateBackSensors`. -/
def calibrateBackSensors (w : World) (c : Calibrator) : Calibrator :=
  let l := getIRValue w Pin.IR_BL c.hw
  let r := getIRValue w Pin.IR_BR l.2
  { c with backLeftCalibrated := l.1, backRightCalibrated := r.1, hw := r.2 }

/-- Model of `calibrateWithIR`; `none` when a loop of the selected operation did
not finish within the fuel. -/
def calibrateWithIR (w : World) (absTwice : Bool) (fuel : Nat) (side : String)
    (c : Calibrator) : Option (String × Calibrator) :=
  if side == "L" then
    calibrateWithIR_L w absTwice fuel c
  else if side == "R" then
    (sideCalibrationPivotIR w absTwice Pin.IR_R2 Pin.IR_R1 c.rightCalibrationOffset
      c.goodDistanceForRight fuel c.hw).map
      fun r => (boolToString r.1, { c with hw := r.2 })
  else if side == "B" then
    (backCalibrationIR w fuel c).map fun c1 => ("1", c1)
  else if side == "l" then
    (leftToCorrectLeft w absTwice fuel c).map fun c1 => ("1", c1)
  else if side == "b" then
    (leftToCorrectBack w absTwice fuel c).map fun c1 => ("1", c1)
  else
    some ("BAD", c)

/-! ## MovementInterfaceMasterSlave.h -/

def MOVE_TIME_LIMIT : Int := 4000
/-- The constant `NOC = 6.0`: number of chunks the motor power range is divided into. -/
def NOC : ℚ := 6
/-- The constant 0.4, taken as the rational 2/5. -/
def WEIGHT_FOR_PREVIOUS_STMR : ℚ := 2 / 5
def STARTING_SLAVE_TO_MASTER_RATIO : ℚ := 1

/-- A value per motor: the arrays indexed by `LEFT` and `RIGHT`. -/
structure PerMotor where
  left : Int
  right : Int
  deriving DecidableEq, Repr

/-- State of a `MovementInterface`: its own field `slaveToMasterRatio`, the field
`startEncoderValues` of its base class, and the hardware behind `motorInterface`
and `buttons`. -/
structure MovementInterface where
  slaveToMasterRatio : ℚ
  startEncoderValues : PerMotor
  hw : Hw

/-- What `go` uses from headers that are not part of the sources: the constants
of `OurRobotSpecs.h` and the members `motorSpeedLimit` and `reset` of
`MovementInterfaceBase`.  They are parameters of the model. -/
structure RobotSpecs where
  MIN_MOTOR_POWER : Int
  MAX_MOTOR_POWER : Int
  TWELVE_INCH_DISTANCE : Int
  /-- The value of `round(WHEEL_WIDTH * PI / 4)`. -/
  quarterTurnDistance : Int
  motorSpeedLimit : Int → Int
  reset : MovementInterface → MovementInterface

/-- One `millis()`. -/
def millis (w : World) (h : Hw) : Int × Hw :=
  (w.clock h.clockReads, { h with clockReads := h.clockReads + 1 })

/-- One `motorInterface->readEncoder(motor)`. -/
def readEncoder (w : World) (motor : Direction) (h : Hw) : Int × Hw :=
  (w.encoder motor (h.encoderReads.get motor),
   { h with encoderReads := h.encoderReads.next motor })

/-- The curve `-4 * x * x + 4 * x` of lines 103-104. -/
def powerCurve (distanceTraveledRatio : ℚ) : ℚ :=
  -4 * distanceTraveledRatio * distanceTraveledRatio + 4 * distanceTraveledRatio

/-- The argument of `round` in the master power (lines 102-104):
`MIN_MOTOR_POWER + motorPowerRange / NOC + motorPowerRange * (..) * (NOC - 2) / NOC`. -/
def masterPowerBeforeClamp (MIN_MOTOR_POWER MAX_MOTOR_POWER : Int)
    (distanceTraveledRatio : ℚ) : ℚ :=
  let motorPowerRange : Int := MAX_MOTOR_POWER - MIN_MOTOR_POWER
  (MIN_MOTOR_POWER : ℚ) + (motorPowerRange : ℚ) / NOC +
    (motorPowerRange : ℚ) * powerCurve distanceTraveledRatio * (NOC - 2) / NOC

/-- Upper bound of the ratio (line 150): `MAX / (MAX - motorPowerRange / NOC)`. -/
def ratioUpperBound (MIN_MOTOR_POWER MAX_MOTOR_POWER : Int) : ℚ :=
  let motorPowerRange : Int := MAX_MOTOR_POWER - MIN_MOTOR_POWER
  (MAX_MOTOR_POWER : ℚ) / ((MAX_MOTOR_POWER : ℚ) - (motorPowerRange : ℚ) / NOC)

/-- Lower bound of the ratio (line 152): `MIN / (MIN + motorPowerRange / NOC)`. -/
def ratioLowerBound (MIN_MOTOR_POWER MAX_MOTOR_POWER : Int) : ℚ :=
  let motorPowerRange : Int := MAX_MOTOR_POWER - MIN_MOTOR_POWER
  (MIN_MOTOR_POWER : ℚ) / ((MIN_MOTOR_POWER : ℚ) + (motorPowerRange : ℚ) / NOC)

/-- The blend of lines 142-144, before the clamp. -/
def blendRatio (slaveToMasterRatio : ℚ) (distanceTraveled : PerMotor) : ℚ :=
  if distanceTraveled.right > 10 then
    WEIGHT_FOR_PREVIOUS_STMR * slaveToMasterRatio +
      (1 - WEIGHT_FOR_PREVIOUS_STMR) * slaveToMasterRatio * (distanceTraveled.left : ℚ) /
        (distanceTraveled.right : ℚ)
  else slaveToMasterRatio

/-- The update of `slaveToMasterRatio` in one iteration (lines 141-152): the blend,
then `min` with the upper bound, then `max` with the lower bound.  `MASTER` is
`LEFT` and `SLAVE` is `RIGHT`. -/
def updateRatio (MIN_MOTOR_POWER MAX_MOTOR_POWER : Int) (slaveToMasterRatio : ℚ)
    (distanceTraveled : PerMotor) : ℚ :=
  max (min (blendRatio slaveToMasterRatio distanceTraveled)
      (ratioUpperBound MIN_MOTOR_POWER MAX_MOTOR_POWER))
    (ratioLowerBound MIN_MOTOR_POWER MAX_MOTOR_POWER)

/-- The loop variables of `go` that live across iterations. -/
structure GoState where
  distanceTraveled : PerMotor
  m : MovementInterface

/-- The `while` condition of `go` (line 85), with its short-circuit order: the
stop button is polled only when the target is not reached, the clock is read
only when no stop is requested. -/
def goCondition (w : World) (targetDistance stopTime : Int) (s : GoState) : Bool × Hw :=
  if s.distanceTraveled.left < targetDistance then
    let b := getStopState w s.m.hw
    if b.1 == '0' then
      let t := millis w b.2
      (decide (t.1 < stopTime), t.2)
    else (false, b.2)
  else (false, s.m.hw)

/-- The progress ratio of lines 90-92. -/
def progressRatio (distanceTraveledMaster targetDistance : Int) : ℚ :=
  let distanceTraveledRatio : ℚ := (distanceTraveledMaster : ℚ) / (targetDistance : ℚ)
  if distanceTraveledRatio > 1 then 1 else distanceTraveledRatio

/-- The body of the loop of `go` (lines 86-166), entered with the hardware state
`h` left by the evaluation of the condition. -/
def goBody (cfg : RobotSpecs) (w : World) (direction : PerMotor) (targetDistance : Int)
    (s : GoState) (h : Hw) : GoState :=
  let distanceTraveledRatio := progressRatio s.distanceTraveled.left targetDistance
  let powerMaster := cfg.motorSpeedLimit (roundToLong
    (masterPowerBeforeClamp cfg.MIN_MOTOR_POWER cfg.MAX_MOTOR_POWER distanceTraveledRatio))
  let powerSlave := cfg.motorSpeedLimit (roundToLong
    ((powerMaster : ℚ) * s.m.slaveToMasterRatio))
  let h1 := issue (Cmd.setMotorPower Direction.LEFT powerMaster direction.left) h
  let h2 := issue (Cmd.setMotorPower Direction.RIGHT powerSlave direction.right) h1
  let eL := readEncoder w Direction.LEFT h2
  let eR := readEncoder w Direction.RIGHT eL.2
  let distanceTraveled : PerMotor :=
    { left := (eL.1 - s.m.startEncoderValues.left) * direction.left,
      right := (eR.1 - s.m.startEncoderValues.right) * direction.right }
  { distanceTraveled := distanceTraveled,
    m := { s.m with
      slaveToMasterRatio := updateRatio cfg.MIN_MOTOR_POWER cfg.MAX_MOTOR_POWER
        s.m.slaveToMasterRatio distanceTraveled,
      hw := eR.2 } }

/-- A run of the `while` loop of `go`. -/
structure GoRun where
  /-- The loop condition was found false within the fuel. -/
  finished : Bool
  /-- Number of executions of the body. -/
  iterations : Nat
  state : GoState

/-- The `while` loop of `go` (lines 85-166). -/
def goLoop (cfg : RobotSpecs) (w : World) (direction : PerMotor)
    (targetDistance stopTime : Int) : Nat → GoState → GoRun
  | fuel, s =>
    let c := goCondition w targetDistance stopTime s
    if c.1 then
      match fuel with
      | 0 => { finished := false, iterations := 0, state := { s with m := { s.m with hw := c.2 } } }
      | fuel + 1 =>
        let rest := goLoop cfg w direction targetDistance stopTime fuel
          (goBody cfg w direction targetDistance s c.2)
        { rest with iterations := rest.iterations + 1 }
    else
      { finished := true, iterations := 0, state := { s with m := { s.m with hw := c.2 } } }

/-- The per-wheel direction signs chosen by `go` (lines 58-77). -/
def goDirection (movementType : Direction) : PerMotor :=
  if movementType = Direction.FORWARD then { left := 1, right := 1 }
  else if movementType = Direction.LEFT then { left := -1, right := 1 }
  else { left := 1, right := -1 }

/-- The target distance chosen by `go` (lines 58-77). -/
def goTargetDistance (cfg : RobotSpecs) (movementType : Direction) : Int :=
  if movementType = Direction.FORWARD then cfg.TWELVE_INCH_DISTANCE
  else cfg.quarterTurnDistance

/-- The run of the loop of `go`, from the state at the call: `reset()`, the read
of the clock for `stopTime`, the choice of directions and target, then the
loop with both traveled distances at 0. -/
def goRun (cfg : RobotSpecs) (w : World) (fuel : Nat) (movementType : Direction)
    (m : MovementInterface) : GoRun :=
  let m1 := cfg.reset m
  let t := millis w m1.hw
  let stopTime := t.1 + MOVE_TIME_LIMIT
  goLoop cfg w (goDirection movementType) (goTargetDistance cfg movementType) stopTime fuel
    { distanceTraveled := { left := 0, right := 0 }, m := { m1 with hw := t.2 } }

/-- Model of `MovementInterface::go`; `none` when the loop did not finish within
the fuel. -/
def go (cfg : RobotSpecs) (w : World) (fuel : Nat) (movementType : Direction)
    (m : MovementInterface) : Option MovementInterface :=
  let run := goRun cfg w fuel movementType m
  if run.finished then
    let h1 := issue (Cmd.setMotorPower Direction.LEFT 0 1) run.state.m.hw
    let h2 := issue (Cmd.setMotorPower Direction.RIGHT 0 1) h1
    some { run.state.m with hw := h2 }
  else none

/-! ## Worked inputs -/

/-- A world for the worked examples: `IR_L1` reads 160 for 300 samples, then 80
for 300 samples, then 50; every other channel reads 50; the stop button is
never pressed; the clock advances 10 ms per read; each encoder advances 400
counts per read. -/
def demoWorld : World where
  analog := fun p n =>
    if p = Pin.IR_L1 then (if n < 300 then 160 else if n < 600 then 80 else 50) else 50
  stopState := fun _ => '0'
  clock := fun n => 10 * n
  encoder := fun _ n => 400 * (n + 1)

/-- A world in which every analog sample is 320. -/
def balancedWorld : World where
  analog := fun _ _ => 320
  stopState := fun _ => '0'
  clock := fun n => 10 * n
  encoder := fun _ n => 400 * (n + 1)

/-- Hardware on which nothing was read or issued yet. -/
def demoHw : Hw where
  analogReads := { l1 := 0, l2 := 0, r1 := 0, r2 := 0, bl := 0, br := 0 }
  stopPolls := 0
  clockReads := 0
  encoderReads := { forward := 0, left := 0, right := 0 }
  cmds := []

/-- A calibrator with good left distance 50 and back targets 40. -/
def demoCalibrator : Calibrator where
  leftCalibrationOffset := 0
  rightCalibrationOffset := 0
  goodDistanceForLeft := 50
  goodDistanceForRight := 50
  leftDistanceAfterOneForward := 95
  backLeftCalibrated := 40
  backRightCalibrated := 40
  hw := demoHw

/-- Robot constants for the worked examples: powers 60 to 255, a forward move of
1000 counts, a quarter turn of 500 counts, a speed limit that clamps to the
power range and a `reset` that reads nothing. -/
def demoSpecs : RobotSpecs where
  MIN_MOTOR_POWER := 60
  MAX_MOTOR_POWER := 255
  TWELVE_INCH_DISTANCE := 1000
  quarterTurnDistance := 500
  motorSpeedLimit := fun p => max 60 (min p 255)
  reset := fun m => m

/-- A movement interface as constructed: ratio 1, encoders started at 0. -/
def demoMovement : MovementInterface where
  slaveToMasterRatio := STARTING_SLAVE_TO_MASTER_RATIO
  startEncoderValues := { left := 0, right := 0 }
  hw := demoHw

/-- A world whose analog samples cycle through 0, 1, .., 6. -/
def rampWorld : World where
  analog := fun _ n => ((n % 7 : Nat) : Int)
  stopState := fun _ => '0'
  clock := fun n => 10 * n
  encoder := fun _ n => 400 * (n + 1)

/-- The demo calibrator with both good side distances set to 220. -/
def edgeCalibrator : Calibrator :=
  { demoCalibrator with goodDistanceForLeft := 220, goodDistanceForRight := 220 }

/-- The demo calibrator with both back targets at 50, the value the back sensors
of `demoWorld` read. -/
def backGoodCalibrator : Calibrator :=
  { demoCalibrator with backLeftCalibrated := 50, backRightCalibrated := 50 }

/-- A world in which the stop button is pressed from the start and every analog
sample is 50. -/
def stoppedWorld : World where
  analog := fun _ _ => 50
  stopState := fun _ => '1'
  clock := fun n => 10 * n
  encoder := fun _ n => 400 * (n + 1)

/-- A world in which the left wheel has rolled back: its encoder reads -100 at
every read, the right one 0; the stop button is never pressed. -/
def backwardWorld : World where
  analog := fun _ _ => 50
  stopState := fun _ => '0'
  clock := fun n => 10 * n
  encoder := fun motor _ => if motor = Direction.LEFT then -100 else 0

/-! ## Auxiliary definitions and lemmas -/

theorem truncToInt_of_nonneg (y : ℚ) (hy : 0 ≤ y) : truncToInt y = ⌊y⌋ := by
  rw [truncToInt, Rat.floor_def, Int.tdiv_eq_ediv (Rat.num_nonneg.mpr hy) (Int.ofNat_nonneg _)]

theorem truncToInt_neg (y : ℚ) : truncToInt (-y) = -truncToInt y := by
  simp only [truncToInt, Rat.neg_num, Rat.neg_den, Int.neg_tdiv]

theorem truncToInt_of_nonpos (y : ℚ) (hy : y ≤ 0) : truncToInt y = ⌈y⌉ := by
  have h := truncToInt_of_nonneg (-y) (by linarith)
  rw [truncToInt_neg] at h
  rw [← neg_neg y, Int.ceil_neg, ← h, neg_neg, neg_neg]

/-- The value of `roundToLong` is an integer nearest to its argument. -/
theorem roundToLong_nearest (x : ℚ) : |(roundToLong x : ℚ) - x| ≤ 1 / 2 := by
  unfold roundToLong
  split_ifs with h
  · rw [truncToInt_of_nonneg _ (by linarith), abs_le]
    have h1 := Int.floor_le (x + 1 / 2)
    have h2 := Int.lt_floor_add_one (x + 1 / 2)
    constructor <;> linarith
  · push_neg at h
    rw [truncToInt_of_nonpos _ (by linarith), abs_le]
    have h1 := Int.le_ceil (x - 1 / 2)
    have h2 := Int.ceil_lt_add_one (x - 1 / 2)
    constructor <;> linarith

theorem calibrateWithIR_L_of_finished (w : World) (absTwice : Bool) (fuel : Nat)
    (c : Calibrator)
    (hfin : (sideLoop w absTwice Pin.IR_L1 Pin.IR_L2 c.leftCalibrationOffset fuel
      c.hw).finished = true) :
    ∃ token h1, calibrateWithIR_L w absTwice fuel c = some (token, { c with hw := h1 }) := by
  simp only [calibrateWithIR_L, sideCalibrationPivotIR, hfin, if_true, Option.map_some']
  exact ⟨_, _, rfl⟩


theorem PinCounts.add_zero (k : PinCounts) (p : Pin) : k.add p 0 = k := by
  cases p <;> rfl

theorem PinCounts.add_add (k : PinCounts) (p : Pin) (a b : Nat) :
    (k.add p a).add p b = k.add p (a + b) := by
  cases p <;> simp [PinCounts.add, Nat.add_assoc]

theorem getIRValueLoop_hw (w : World) (p : Pin) (n : Nat) (t : Int) (h : Hw) :
    (getIRValueLoop w p n t h).2 = readsAfter h p n := by
  induction n generalizing t h with
  | zero => simp [getIRValueLoop, readsAfter, PinCounts.add_zero]
  | succ n ih =>
    simp only [getIRValueLoop, ih, analogRead, readsAfter, PinCounts.add_add, Nat.add_comm 1 n]

theorem getIRValue_hw (w : World) (p : Pin) (h : Hw) :
    (getIRValue w p h).2 = readsAfter h p SAMPLE_COUNT := by
  simp only [getIRValue, getIRValueLoop_hw]

theorem getIRValue_cmds (w : World) (p : Pin) (h : Hw) :
    (getIRValue w p h).2.cmds = h.cmds := by
  rw [getIRValue_hw]; rfl

theorem getDifferenceBetweenIRs_cmds (w : World) (l r : Pin) (offset : Int) (h : Hw) :
    (getDifferenceBetweenIRs w l r offset h).2.cmds = h.cmds := by
  simp only [getDifferenceBetweenIRs, getIRValue_cmds]

theorem absOfDifference_cmds (w : World) (absTwice : Bool) (l r : Pin) (offset : Int)
    (h : Hw) : (absOfDifference w absTwice l r offset h).hw.cmds = h.cmds := by
  simp only [absOfDifference]
  split_ifs <;> simp only [getDifferenceBetweenIRs_cmds]

theorem absOfDifference_value (w : World) (absTwice : Bool) (l r : Pin) (offset : Int)
    (h : Hw) :
    (absOfDifference w absTwice l r offset h).value
      ≤ |(absOfDifference w absTwice l r offset h).difference|
    ∧ ∃ h0, (absOfDifference w absTwice l r offset h).difference
        = (getDifferenceBetweenIRs w l r offset h0).1 := by
  simp only [absOfDifference]
  split_ifs
  · exact ⟨le_abs_self _, _, rfl⟩
  · exact ⟨neg_le_abs _, _, rfl⟩
  · exact ⟨le_refl _, _, rfl⟩

theorem sideLoopCondition_cmds (w : World) (absTwice : Bool) (l r : Pin) (offset : Int)
    (h : Hw) : (sideLoopCondition w absTwice l r offset h).hw.cmds = h.cmds := by
  simp only [sideLoopCondition, getStopState]
  split_ifs <;> simp only [absOfDifference_cmds]

theorem sideLoopCondition_enter (w : World) (absTwice : Bool) (l r : Pin) (offset : Int)
    (h : Hw) (he : (sideLoopCondition w absTwice l r offset h).enter = true) :
    |(sideLoopCondition w absTwice l r offset h).difference| > SIDE_PIVOT_THRESHOLD
    ∧ ∃ h0, (sideLoopCondition w absTwice l r offset h).difference
        = (getDifferenceBetweenIRs w l r offset h0).1 := by
  have hv := absOfDifference_value w absTwice l r offset h
  simp only [sideLoopCondition] at he ⊢
  split_ifs at he ⊢ with h1
  exact ⟨lt_of_lt_of_le h1 hv.1, hv.2⟩

theorem sidePivot_magnitude (d : Int) (hd : |d| > SIDE_PIVOT_THRESHOLD) :
    sidePivot d = Cmd.smallPivot (if d > 0 then Direction.RIGHT else Direction.LEFT)
      (if |d| > THRESHOLD_FOR_BIG_PIVOT then 2 else 1) := by
  simp only [sidePivot, THRESHOLD_FOR_BIG_PIVOT, SIDE_PIVOT_THRESHOLD] at hd ⊢
  rcases abs_cases d with ⟨h1, h2⟩ | ⟨h1, h2⟩ <;> rw [h1] at hd ⊢ <;>
    split_ifs <;> first | rfl | omega

theorem sideLoop_zero (w : World) (absTwice : Bool) (l r : Pin) (offset : Int) (h : Hw) :
    sideLoop w absTwice l r offset 0 h
      = if (sideLoopCondition w absTwice l r offset h).enter then
          { finished := false, differences := [],
            hw := (sideLoopCondition w absTwice l r offset h).hw }
        else
          { finished := true, differences := [],
            hw := (sideLoopCondition w absTwice l r offset h).hw } := by
  rw [sideLoop]

theorem sideLoop_succ (w : World) (absTwice : Bool) (l r : Pin) (offset : Int) (fuel : Nat)
    (h : Hw) :
    sideLoop w absTwice l r offset (fuel + 1) h
      = if (sideLoopCondition w absTwice l r offset h).enter then
          { sideLoop w absTwice l r offset fuel
              (issue (sidePivot (sideLoopCondition w absTwice l r offset h).difference)
                (sideLoopCondition w absTwice l r offset h).hw) with
            differences := (sideLoopCondition w absTwice l r offset h).difference ::
              (sideLoop w absTwice l r offset fuel
                (issue (sidePivot (sideLoopCondition w absTwice l r offset h).difference)
                  (sideLoopCondition w absTwice l r offset h).hw)).differences }
        else
          { finished := true, differences := [],
            hw := (sideLoopCondition w absTwice l r offset h).hw } := by
  rw [sideLoop]

theorem sideLoop_cmds (w : World) (absTwice : Bool) (l r : Pin) (offset : Int) (fuel : Nat)
    (h : Hw) :
    (sideLoop w absTwice l r offset fuel h).hw.cmds
      = h.cmds ++ (sideLoop w absTwice l r offset fuel h).differences.map sidePivot := by
  induction fuel generalizing h with
  | zero =>
    rw [sideLoop_zero]
    split_ifs <;> simp [sideLoopCondition_cmds]
  | succ fuel ih =>
    rw [sideLoop_succ]
    split_ifs
    · simp [ih, issue, sideLoopCondition_cmds]
    · simp [sideLoopCondition_cmds]

theorem sideLoop_differences (w : World) (absTwice : Bool) (l r : Pin) (offset : Int)
    (fuel : Nat) (h : Hw) (d : Int)
    (hd : d ∈ (sideLoop w absTwice l r offset fuel h).differences) :
    |d| > SIDE_PIVOT_THRESHOLD ∧ ∃ h0, d = (getDifferenceBetweenIRs w l r offset h0).1 := by
  induction fuel generalizing h with
  | zero =>
    rw [sideLoop_zero] at hd
    split_ifs at hd <;> simp at hd
  | succ fuel ih =>
    rw [sideLoop_succ] at hd
    split_ifs at hd with he
    · simp only [List.mem_cons] at hd
      rcases hd with rfl | hd
      · exact sideLoopCondition_enter w absTwice l r offset h he
      · exact ih _ hd
    · simp at hd

theorem sideLoop_more_fuel (w : World) (absTwice : Bool) (l r : Pin) (offset : Int)
    (fuel k : Nat) (h : Hw)
    (hfin : (sideLoop w absTwice l r offset fuel h).finished = true) :
    sideLoop w absTwice l r offset (fuel + k) h = sideLoop w absTwice l r offset fuel h := by
  induction fuel generalizing h with
  | zero =>
    rw [sideLoop_zero] at hfin ⊢
    split_ifs at hfin ⊢ with he
    cases k with
    | zero => rw [sideLoop_zero, if_neg he]
    | succ k => rw [Nat.zero_add, sideLoop_succ, if_neg he]
  | succ fuel ih =>
    rw [sideLoop_succ] at hfin
    rw [Nat.add_right_comm, sideLoop_succ, sideLoop_succ]
    split_ifs at hfin ⊢ with he
    · rw [ih _ hfin]
    · rfl

theorem goLoop_zero (cfg : RobotSpecs) (w : World) (direction : PerMotor)
    (targetDistance stopTime : Int) (s : GoState) :
    goLoop cfg w direction targetDistance stopTime 0 s
      = if (goCondition w targetDistance stopTime s).1 then
          { finished := false, iterations := 0,
            state := { s with m := { s.m with hw := (goCondition w targetDistance stopTime s).2 } } }
        else
          { finished := true, iterations := 0,
            state := { s with m := { s.m with hw := (goCondition w targetDistance stopTime s).2 } } } := by
  rw [goLoop]

theorem goLoop_succ (cfg : RobotSpecs) (w : World) (direction : PerMotor)
    (targetDistance stopTime : Int) (fuel : Nat) (s : GoState) :
    goLoop cfg w direction targetDistance stopTime (fuel + 1) s
      = if (goCondition w targetDistance stopTime s).1 then
          { goLoop cfg w direction targetDistance stopTime fuel
              (goBody cfg w direction targetDistance s (goCondition w targetDistance stopTime s).2) with
            iterations := (goLoop cfg w direction targetDistance stopTime fuel
              (goBody cfg w direction targetDistance s
                (goCondition w targetDistance stopTime s).2)).iterations + 1 }
        else
          { finished := true, iterations := 0,
            state := { s with m := { s.m with hw := (goCondition w targetDistance stopTime s).2 } } } := by
  rw [goLoop]

theorem goLoop_more_fuel (cfg : RobotSpecs) (w : World) (direction : PerMotor)
    (targetDistance stopTime : Int) (fuel k : Nat) (s : GoState)
    (hfin : (goLoop cfg w direction targetDistance stopTime fuel s).finished = true) :
    goLoop cfg w direction targetDistance stopTime (fuel + k) s
      = goLoop cfg w direction targetDistance stopTime fuel s := by
  induction fuel generalizing s with
  | zero =>
    rw [goLoop_zero] at hfin ⊢
    split_ifs at hfin ⊢ with he
    cases k with
    | zero => rw [goLoop_zero, if_neg he]
    | succ k => rw [Nat.zero_add, goLoop_succ, if_neg he]
  | succ fuel ih =>
    rw [goLoop_succ] at hfin
    rw [Nat.add_right_comm, goLoop_succ, goLoop_succ]
    split_ifs at hfin ⊢ with he
    · rw [ih _ hfin]
    · rfl

theorem getIRValueLoop_const (w : World) (p : Pin) (v : Int) (hv : ∀ i, w.analog p i = v)
    (n : Nat) (t : Int) (h : Hw) : (getIRValueLoop w p n t h).1 = t + n * v := by
  induction n generalizing t h with
  | zero => simp [getIRValueLoop]
  | succ n ih =>
    simp only [getIRValueLoop, ih, analogRead, hv]
    push_cast
    ring

theorem getIRValue_const (w : World) (p : Pin) (v : Int) (hv : ∀ i, w.analog p i = v)
    (h : Hw) : (getIRValue w p h).1 = v := by
  simp only [getIRValue, getIRValueLoop_const w p v hv, SAMPLE_COUNT, zero_add]
  exact Int.mul_tdiv_cancel_left v (by decide)

theorem mean_same (v : Int) : Int.tdiv (v + v) 2 = v := by
  rw [← two_mul]
  exact Int.mul_tdiv_cancel_left v (by decide)

theorem PinCounts.get_add_same (k : PinCounts) (p : Pin) (n : Nat) :
    (k.add p n).get p = k.get p + n := by
  cases p <;> rfl

theorem getIRValueLoop_sum (w : World) (p : Pin) (n : Nat) (t : Int) (h : Hw) :
    (getIRValueLoop w p n t h).1
      = t + ∑ i in Finset.range n, w.analog p (h.analogReads.get p + i) := by
  induction n generalizing t h with
  | zero => simp [getIRValueLoop]
  | succ n ih =>
    rw [getIRValueLoop, ih, Finset.sum_range_succ']
    simp only [analogRead, PinCounts.get_add_same, Nat.add_zero]
    have e : ∀ i, h.analogReads.get p + 1 + i = h.analogReads.get p + (i + 1) := by
      intro i; omega
    simp only [e]
    ring

theorem tdiv_between (total lo hi : Int) (n : Int) (hn : 0 < n) (h1 : n * lo ≤ total)
    (h2 : total ≤ n * hi) : lo ≤ Int.tdiv total n ∧ Int.tdiv total n ≤ hi := by
  rcases le_or_lt 0 total with ht | ht
  · rw [Int.tdiv_eq_ediv ht (le_of_lt hn)]
    constructor
    · exact (Int.le_ediv_iff_mul_le hn).mpr (by linarith [mul_comm n lo])
    · exact Int.ediv_le_of_le_mul hn (by linarith [mul_comm n hi])
  · have hq : Int.tdiv total n = -(Int.tdiv (-total) n) := by
      rw [Int.neg_tdiv, neg_neg]
    rw [hq, Int.tdiv_eq_ediv (by omega) (le_of_lt hn)]
    constructor
    · have : (-total) / n ≤ -lo := Int.ediv_le_of_le_mul hn (by linarith [mul_comm n lo])
      omega
    · have : -hi ≤ (-total) / n := (Int.le_ediv_iff_mul_le hn).mpr (by linarith [mul_comm n hi])
      omega

theorem sum_range_between (f : Nat → Int) (n : Nat) (lo hi : Int)
    (hb : ∀ i, i < n → lo ≤ f i ∧ f i ≤ hi) :
    (n : Int) * lo ≤ ∑ i in Finset.range n, f i ∧ ∑ i in Finset.range n, f i ≤ (n : Int) * hi := by
  induction n with
  | zero => simp
  | succ n ih =>
    have h1 := ih (fun i hi => hb i (Nat.lt_succ_of_lt hi))
    have h2 := hb n (Nat.lt_succ_self n)
    rw [Finset.sum_range_succ]
    push_cast
    constructor <;> nlinarith [h1.1, h1.2, h2.1, h2.2]


/-- The nudge issued by an execution of the body of the back loop. -/
theorem backNudge_cmds (bl br l r : Int) (h : Hw) :
    (backNudge bl br l r h).cmds
      = h.cmds ++ [Cmd.nudge (needToMoveLeft l bl) (needToMoveRight r br)] :=
  rfl

theorem backLoop_succ (w : World) (bl br : Int) (fuel : Nat) (l r : Int) (h : Hw) :
    backLoop w bl br (fuel + 1) l r h
      = if (rightGood r br && leftGood l bl) = true then
          { finished := true,
            iterations := [{ leftReading := l, rightReading := r, stop := none }],
            hw := (getIRValue w Pin.IR_BR
              (getIRValue w Pin.IR_BL (backNudge bl br l r h)).2).2 }
        else if (w.stopState h.stopPolls == '1') = true then
          { finished := true,
            iterations := [{ leftReading := l, rightReading := r,
                             stop := some (w.stopState h.stopPolls) }],
            hw := (getIRValue w Pin.IR_BR
              (getIRValue w Pin.IR_BL (getStopState w (backNudge bl br l r h)).2).2).2 }
        else
          { backLoop w bl br fuel
              (getIRValue w Pin.IR_BL (getStopState w (backNudge bl br l r h)).2).1
              (getIRValue w Pin.IR_BR
                (getIRValue w Pin.IR_BL (getStopState w (backNudge bl br l r h)).2).2).1
              (getIRValue w Pin.IR_BR
                (getIRValue w Pin.IR_BL (getStopState w (backNudge bl br l r h)).2).2).2 with
            iterations := { leftReading := l, rightReading := r,
                            stop := some (w.stopState h.stopPolls) } ::
              (backLoop w bl br fuel
                (getIRValue w Pin.IR_BL (getStopState w (backNudge bl br l r h)).2).1
                (getIRValue w Pin.IR_BR
                  (getIRValue w Pin.IR_BL (getStopState w (backNudge bl br l r h)).2).2).1
                (getIRValue w Pin.IR_BR
                  (getIRValue w Pin.IR_BL
                    (getStopState w (backNudge bl br l r h)).2).2).2).iterations } := by
  rw [backLoop]
  by_cases hg : (rightGood r br && leftGood l bl) = true
  · simp only [hg, if_true]
  · simp only [hg, if_false]
    by_cases hs : (w.stopState h.stopPolls == '1') = true
    · have hs' : ((getStopState w (backNudge bl br l r h)).1 == '1') = true := hs
      simp only [hs, hs', if_true]
      rfl
    · have hs' : ¬ ((getStopState w (backNudge bl br l r h)).1 == '1') = true := hs
      simp only [hs, hs', if_false]
      rfl

theorem getStopState_cmds (w : World) (h : Hw) : (getStopState w h).2.cmds = h.cmds := rfl

theorem backLoop_cmds (w : World) (bl br : Int) (fuel : Nat) (l r : Int) (h : Hw) :
    (backLoop w bl br fuel l r h).hw.cmds
      = h.cmds ++ (backLoop w bl br fuel l r h).iterations.map
          (fun it => Cmd.nudge (needToMoveLeft it.leftReading bl)
            (needToMoveRight it.rightReading br)) := by
  induction fuel generalizing l r h with
  | zero => simp [backLoop]
  | succ fuel ih =>
    rw [backLoop_succ]
    split_ifs
    · simp [getIRValue_cmds, backNudge_cmds]
    · simp [getIRValue_cmds, backNudge_cmds, getStopState_cmds]
    · simp [ih, getIRValue_cmds, backNudge_cmds, getStopState_cmds]

theorem backLoop_stop_polled (w : World) (bl br : Int) (fuel : Nat) (l r : Int) (h : Hw)
    (it : BackIteration) (hit : it ∈ (backLoop w bl br fuel l r h).iterations) :
    (it.stop = none ↔ (rightGood it.rightReading br && leftGood it.leftReading bl) = true) := by
  induction fuel generalizing l r h with
  | zero => simp [backLoop] at hit
  | succ fuel ih =>
    rw [backLoop_succ] at hit
    split_ifs at hit with hg hs
    · simp only [List.mem_singleton] at hit
      subst hit
      simp [hg]
    · simp only [List.mem_singleton] at hit
      subst hit
      simp [hg]
    · simp only [List.mem_cons] at hit
      rcases hit with rfl | hit
      · simp [hg]
      · exact ih _ _ _ hit

theorem mem_dropLast_cons {α : Type} (a x : α) (rest : List α)
    (hx : x ∈ (a :: rest).dropLast) : x = a ∨ x ∈ rest.dropLast := by
  cases rest with
  | nil => simp at hx
  | cons b bs => simpa [List.dropLast] using hx

theorem backLoop_continues (w : World) (bl br : Int) (fuel : Nat) (l r : Int) (h : Hw)
    (it : BackIteration) (hit : it ∈ (backLoop w bl br fuel l r h).iterations.dropLast) :
    (rightGood it.rightReading br && leftGood it.leftReading bl) = false
    ∧ ∃ s, it.stop = some s ∧ s ≠ '1' := by
  induction fuel generalizing l r h with
  | zero => simp [backLoop] at hit
  | succ fuel ih =>
    rw [backLoop_succ] at hit
    split_ifs at hit with hg hs
    · simp at hit
    · simp at hit
    · rcases mem_dropLast_cons _ _ _ hit with rfl | hh
      · refine ⟨by simpa using hg, _, rfl, ?_⟩
        intro e
        exact hs (by simp [e])
      · exact ih _ _ _ hh

theorem backLoop_last (w : World) (bl br : Int) (fuel : Nat) (l r : Int) (h : Hw)
    (hfin : (backLoop w bl br fuel l r h).finished = true) :
    ∃ it, (backLoop w bl br fuel l r h).iterations.getLast? = some it
      ∧ ((rightGood it.rightReading br && leftGood it.leftReading bl) = true
        ∨ it.stop = some '1') := by
  induction fuel generalizing l r h with
  | zero => simp [backLoop] at hfin
  | succ fuel ih =>
    rw [backLoop_succ] at hfin ⊢
    split_ifs at hfin ⊢ with hg hs
    · exact ⟨_, rfl, Or.inl hg⟩
    · refine ⟨_, rfl, Or.inr ?_⟩
      have : w.stopState h.stopPolls = '1' := by simpa using hs
      simp [this]
    · obtain ⟨it, h1, h2⟩ := ih _ _ _ hfin
      refine ⟨it, ?_, h2⟩
      simp only
      rw [List.getLast?_cons, h1]
      rfl

theorem backLoop_untouched (w : World) (bl br : Int) (fuel : Nat) (l r : Int) (h : Hw) :
    (backLoop w bl br fuel l r h).hw.clockReads = h.clockReads
    ∧ (backLoop w bl br fuel l r h).hw.encoderReads = h.encoderReads := by
  induction fuel generalizing l r h with
  | zero => simp [backLoop]
  | succ fuel ih =>
    rw [backLoop_succ]
    split_ifs
    · simp only [getIRValue_hw]; exact ⟨rfl, rfl⟩
    · simp only [getIRValue_hw]; exact ⟨rfl, rfl⟩
    · simp only [ih, getIRValue_hw]; exact ⟨rfl, rfl⟩

theorem roundToLong_ge (a : Int) (x : ℚ) (hx : (a : ℚ) ≤ x) : a ≤ roundToLong x := by
  have h := abs_le.mp (roundToLong_nearest x)
  have h1 : ((a - 1 : Int) : ℚ) < (roundToLong x : ℚ) := by
    push_cast
    linarith [h.1]
  have h2 : a - 1 < roundToLong x := by exact_mod_cast h1
  omega

theorem roundToLong_le (b : Int) (x : ℚ) (hx : x ≤ (b : ℚ)) : roundToLong x ≤ b := by
  have h := abs_le.mp (roundToLong_nearest x)
  have h1 : (roundToLong x : ℚ) < ((b + 1 : Int) : ℚ) := by
    push_cast
    linarith [h.2]
  have h2 : roundToLong x < b + 1 := by exact_mod_cast h1
  omega

theorem goBody_cmds (cfg : RobotSpecs) (w : World) (direction : PerMotor) (targetDistance : Int)
    (s : GoState) (h : Hw) :
    (goBody cfg w direction targetDistance s h).m.hw.cmds
      = h.cmds ++ [Cmd.setMotorPower Direction.LEFT
            (cfg.motorSpeedLimit (roundToLong (masterPowerBeforeClamp cfg.MIN_MOTOR_POWER
              cfg.MAX_MOTOR_POWER (progressRatio s.distanceTraveled.left targetDistance))))
            direction.left,
          Cmd.setMotorPower Direction.RIGHT
            (cfg.motorSpeedLimit (roundToLong
              (((cfg.motorSpeedLimit (roundToLong (masterPowerBeforeClamp cfg.MIN_MOTOR_POWER
                cfg.MAX_MOTOR_POWER (progressRatio s.distanceTraveled.left targetDistance))) :
                  Int) : ℚ) * s.m.slaveToMasterRatio)))
            direction.right] := by
  simp [goBody, readEncoder, issue]

theorem getDifferenceBetweenIRs_untouched (w : World) (l r : Pin) (offset : Int) (h : Hw) :
    (getDifferenceBetweenIRs w l r offset h).2.stopPolls = h.stopPolls
    ∧ (getDifferenceBetweenIRs w l r offset h).2.clockReads = h.clockReads
    ∧ (getDifferenceBetweenIRs w l r offset h).2.encoderReads = h.encoderReads := by
  simp only [getDifferenceBetweenIRs, getIRValue_hw]
  exact ⟨rfl, rfl, rfl⟩

theorem absOfDifference_untouched (w : World) (absTwice : Bool) (l r : Pin) (offset : Int)
    (h : Hw) :
    (absOfDifference w absTwice l r offset h).hw.stopPolls = h.stopPolls
    ∧ (absOfDifference w absTwice l r offset h).hw.clockReads = h.clockReads
    ∧ (absOfDifference w absTwice l r offset h).hw.encoderReads = h.encoderReads := by
  simp only [absOfDifference]
  split_ifs <;> simp only [getDifferenceBetweenIRs_untouched, and_self]

theorem sideLoopCondition_untouched (w : World) (absTwice : Bool) (l r : Pin) (offset : Int)
    (h : Hw) :
    (sideLoopCondition w absTwice l r offset h).hw.clockReads = h.clockReads
    ∧ (sideLoopCondition w absTwice l r offset h).hw.encoderReads = h.encoderReads := by
  have ha := absOfDifference_untouched w absTwice l r offset h
  simp only [sideLoopCondition, getStopState]
  split_ifs
  · exact ⟨ha.2.1, ha.2.2⟩
  · exact ⟨ha.2.1, ha.2.2⟩

theorem sideLoopCondition_of_stop (w : World) (absTwice : Bool) (l r : Pin) (offset : Int)
    (h : Hw) (hstop : w.stopState h.stopPolls ≠ '0') :
    (sideLoopCondition w absTwice l r offset h).enter = false := by
  have ha := (absOfDifference_untouched w absTwice l r offset h).1
  simp only [sideLoopCondition, getStopState]
  split_ifs
  · simp only [ha]
    simpa using hstop
  · rfl

theorem sideLoop_untouched (w : World) (absTwice : Bool) (l r : Pin) (offset : Int)
    (fuel : Nat) (h : Hw) :
    (sideLoop w absTwice l r offset fuel h).hw.clockReads = h.clockReads
    ∧ (sideLoop w absTwice l r offset fuel h).hw.encoderReads = h.encoderReads := by
  induction fuel generalizing h with
  | zero =>
    rw [sideLoop_zero]
    split_ifs <;> exact sideLoopCondition_untouched w absTwice l r offset h
  | succ fuel ih =>
    rw [sideLoop_succ]
    split_ifs
    · have h1 := ih (issue (sidePivot (sideLoopCondition w absTwice l r offset h).difference)
        (sideLoopCondition w absTwice l r offset h).hw)
      have h2 := sideLoopCondition_untouched w absTwice l r offset h
      exact ⟨h1.1.trans h2.1, h1.2.trans h2.2⟩
    · exact sideLoopCondition_untouched w absTwice l r offset h

theorem sidePivot_is_smallPivot (d : Int) :
    ∃ direction k, sidePivot d = Cmd.smallPivot direction k := by
  simp only [sidePivot]
  split_ifs <;> exact ⟨_, _, rfl⟩

theorem goCondition_of_stop (w : World) (targetDistance stopTime : Int) (s : GoState)
    (hstop : w.stopState s.m.hw.stopPolls ≠ '0') :
    (goCondition w targetDistance stopTime s).1 = false
    ∧ (goCondition w targetDistance stopTime s).2.cmds = s.m.hw.cmds
    ∧ (goCondition w targetDistance stopTime s).2.encoderReads = s.m.hw.encoderReads := by
  have hb : ¬ ((getStopState w s.m.hw).1 == '0') = true := by
    simpa [getStopState] using hstop
  simp only [goCondition]
  split_ifs
  · exact ⟨rfl, rfl, rfl⟩
  · exact ⟨rfl, rfl, rfl⟩

/-! ## Properties -/

/-- C1. Back-nudge tiering of `backCalibrationIR`: with `d = reading - target`, the
tier is 0 exactly when `|d| ≤ 5`, 1 exactly when `5 < d ≤ 30`, 2 exactly when
`d > 30`, -1 exactly when `-30 ≤ d < -5` and -2 exactly when `d < -30`; the
left and the right sensor follow the same rule, each with its own reading and
target, and the `nudge` of an iteration is issued with these two tiers.  With
target 40 the readings 50, 75 and 42 give the tiers 1, 2 and 0. -/
theorem back_nudge_tiering (reading target otherReading otherTarget : Int) (h : Hw) :
    (needToMoveLeft reading target = 0 ↔ |reading - target| ≤ 5)
    ∧ (needToMoveLeft reading target = 1 ↔ 5 < reading - target ∧ reading - target ≤ 30)
    ∧ (needToMoveLeft reading target = 2 ↔ reading - target > 30)
    ∧ (needToMoveLeft reading target = -1 ↔ -30 ≤ reading - target ∧ reading - target < -5)
    ∧ (needToMoveLeft reading target = -2 ↔ reading - target < -30)
    ∧ (leftGood reading target = true ↔ needToMoveLeft reading target = 0)
    ∧ needToMoveRight reading target = needToMoveLeft reading target
    ∧ rightGood reading target = leftGood reading target
    ∧ (backNudge target otherTarget reading otherReading h).cmds
        = h.cmds ++ [Cmd.nudge (needToMoveLeft reading target)
            (needToMoveRight otherReading otherTarget)]
    ∧ needToMoveLeft 50 40 = 1 ∧ needToMoveLeft 75 40 = 2 ∧ needToMoveLeft 42 40 = 0
    ∧ needToMoveRight 50 40 = 1 ∧ needToMoveRight 75 40 = 2 ∧ needToMoveRight 42 40 = 0 := by
  have hR : ∀ a b : Int, needToMoveRight a b = needToMoveLeft a b := fun _ _ => rfl
  refine ⟨?_, ?_, ?_, ?_, ?_, ?_, hR _ _, rfl, ?_, by decide, by decide, by decide,
    by decide, by decide, by decide⟩
  · rw [abs_le]
    simp only [needToMoveLeft, boolToInt, BACK_CALIBRATION_THRESHOLD, THRESHOLD_FOR_BIG_NUDGE]
    split_ifs <;> simp at * <;> omega
  · simp only [needToMoveLeft, boolToInt, BACK_CALIBRATION_THRESHOLD, THRESHOLD_FOR_BIG_NUDGE]
    split_ifs <;> simp at * <;> omega
  · simp only [needToMoveLeft, boolToInt, BACK_CALIBRATION_THRESHOLD, THRESHOLD_FOR_BIG_NUDGE]
    split_ifs <;> simp at * <;> omega
  · simp only [needToMoveLeft, boolToInt, BACK_CALIBRATION_THRESHOLD, THRESHOLD_FOR_BIG_NUDGE]
    split_ifs <;> simp at * <;> omega
  · simp only [needToMoveLeft, boolToInt, BACK_CALIBRATION_THRESHOLD, THRESHOLD_FOR_BIG_NUDGE]
    split_ifs <;> simp at * <;> omega
  · simp only [needToMoveLeft, leftGood, boolToInt, BACK_CALIBRATION_THRESHOLD,
      THRESHOLD_FOR_BIG_NUDGE]
    split_ifs <;> simp at *
  · simp only [backNudge, issue]

/-- C2. In every run of the loop of `sideCalibrationPivotIR`, finished or not, the
commands issued are one `smallPivot` per execution of the body, chosen from the
value `d` of `difference` in that execution; every such `d` is a corrected
difference `leftReading - rightReading + offset` with `|d| > 8`, so no pivot is
issued when `|d| ≤ 8`; the magnitude is 2 when `|d| > 50` and 1 otherwise; and
the code after the loop issues no command. -/
theorem side_pivot_only_beyond_threshold (w : World) (absTwice : Bool) (l r : Pin)
    (offset good : Int) (fuel : Nat) (h : Hw) :
    (sideLoop w absTwice l r offset fuel h).hw.cmds
      = h.cmds ++ (sideLoop w absTwice l r offset fuel h).differences.map sidePivot
    ∧ (∀ d ∈ (sideLoop w absTwice l r offset fuel h).differences,
        |d| > SIDE_PIVOT_THRESHOLD
        ∧ (∃ h0, d = (getDifferenceBetweenIRs w l r offset h0).1)
        ∧ ∃ direction, sidePivot d
            = Cmd.smallPivot direction (if |d| > THRESHOLD_FOR_BIG_PIVOT then 2 else 1))
    ∧ (sideCalibrationPivotIR w absTwice l r offset good fuel h).map (fun res => res.2.cmds)
        = if (sideLoop w absTwice l r offset fuel h).finished
          then some (sideLoop w absTwice l r offset fuel h).hw.cmds else none := by
  refine ⟨sideLoop_cmds w absTwice l r offset fuel h, ?_, ?_⟩
  · intro d hd
    have hs := sideLoop_differences w absTwice l r offset fuel h d hd
    exact ⟨hs.1, hs.2, _, sidePivot_magnitude d hs.1⟩
  · simp only [sideCalibrationPivotIR]
    split_ifs <;> simp [getIRValue_cmds]

/-- C3. For every selector other than "L", "R", "B", "l" and "b", `calibrateWithIR`
returns "BAD" and the calibrator is left as it was: the seven calibration
fields are unchanged, no sensor was read, no button polled and no movement
command issued. -/
theorem calibrate_unknown_selector (w : World) (absTwice : Bool) (fuel : Nat) (side : String)
    (c : Calibrator) (hL : side ≠ "L") (hR : side ≠ "R") (hB : side ≠ "B")
    (hl : side ≠ "l") (hb : side ≠ "b") :
    calibrateWithIR w absTwice fuel side c = some ("BAD", c) := by
  simp [calibrateWithIR, hL, hR, hB, hl, hb]

/-- Worked instance of C3: the selector "X" on the demo calibrator. -/
theorem calibrate_unknown_selector_witness :
    "X" ≠ "L" ∧ "X" ≠ "R" ∧ "X" ≠ "B" ∧ "X" ≠ "l" ∧ "X" ≠ "b"
    ∧ calibrateWithIR demoWorld false 0 "X" demoCalibrator = some ("BAD", demoCalibrator) :=
  ⟨by decide, by decide, by decide, by decide, by decide,
    calibrate_unknown_selector demoWorld false 0 "X" demoCalibrator
      (by decide) (by decide) (by decide) (by decide) (by decide)⟩

set_option maxRecDepth 8000 in
/-- C4. When every sample of `IR_L1` equals every sample of `IR_L2`, running
`getLeftCalibrationValuesForIRSensors` and then `calibrateWithIR("L")` returns
"1" for every stop signal and every fuel, and no command is issued by either
call. -/
theorem balanced_left_is_good (w : World) (absTwice : Bool) (fuel : Nat) (c : Calibrator)
    (hbal : ∀ i j, w.analog Pin.IR_L1 i = w.analog Pin.IR_L2 j) :
    ∃ c1, calibrateWithIR w absTwice fuel "L" (getLeftCalibrationValuesForIRSensors w c)
        = some ("1", c1)
      ∧ c1.hw.cmds = c.hw.cmds
      ∧ (getLeftCalibrationValuesForIRSensors w c).hw.cmds = c.hw.cmds := by
  have h1 : ∀ i, w.analog Pin.IR_L1 i = w.analog Pin.IR_L2 0 := fun i => hbal i 0
  have h2 : ∀ j, w.analog Pin.IR_L2 j = w.analog Pin.IR_L2 0 := fun j =>
    (hbal 0 j).symm.trans (hbal 0 0)
  have g1 := getIRValue_const w Pin.IR_L1 _ h1
  have g2 := getIRValue_const w Pin.IR_L2 _ h2
  have hcond : ∀ hh, (sideLoopCondition w absTwice Pin.IR_L1 Pin.IR_L2 0 hh).enter = false := by
    intro hh
    simp only [sideLoopCondition, absOfDifference, getDifferenceBetweenIRs, g1, g2,
      SIDE_PIVOT_THRESHOLD]
    cases absTwice <;> simp
  have hrun : ∀ hh, sideLoop w absTwice Pin.IR_L1 Pin.IR_L2 0 fuel hh
      = { finished := true, differences := [],
          hw := (sideLoopCondition w absTwice Pin.IR_L1 Pin.IR_L2 0 hh).hw } := by
    intro hh
    cases fuel with
    | zero => rw [sideLoop_zero, hcond]; rfl
    | succ n => rw [sideLoop_succ, hcond]; rfl
  have hsel : ∀ cc, calibrateWithIR w absTwice fuel "L" cc
      = calibrateWithIR_L w absTwice fuel cc := by
    intro cc
    rw [calibrateWithIR, if_pos (by decide)]
  have hoff : (getLeftCalibrationValuesForIRSensors w c).leftCalibrationOffset = 0 := by
    simp only [getLeftCalibrationValuesForIRSensors, getDifferenceBetweenIRs, g1, g2]
    simp
  have hgood : (getLeftCalibrationValuesForIRSensors w c).goodDistanceForLeft
      = w.analog Pin.IR_L2 0 := by
    simp only [getLeftCalibrationValuesForIRSensors, g1, g2, mean_same]
  rw [hsel]
  simp only [calibrateWithIR_L, sideCalibrationPivotIR, hoff, hgood, hrun, g1, g2, mean_same]
  have hlt : decide ((0 : Int) < 100) = true := by decide
  simp only [sub_self, abs_zero, THRESHOLD_FOR_SIDE_DISTANCE, if_true, Option.map_some', hlt,
    boolToString]
  refine ⟨_, rfl, ?_, ?_⟩
  · simp only [sideLoopCondition_cmds, getIRValue_cmds, getDifferenceBetweenIRs_cmds,
      getLeftCalibrationValuesForIRSensors]
  · simp only [getIRValue_cmds, getDifferenceBetweenIRs_cmds,
      getLeftCalibrationValuesForIRSensors]

/-- Worked instance of C4: every analog sample is 320. -/
theorem balanced_left_is_good_witness :
    (∀ i j, balancedWorld.analog Pin.IR_L1 i = balancedWorld.analog Pin.IR_L2 j)
    ∧ ∃ c1, calibrateWithIR balancedWorld true 0 "L"
          (getLeftCalibrationValuesForIRSensors balancedWorld demoCalibrator) = some ("1", c1)
        ∧ c1.hw.cmds = demoCalibrator.hw.cmds
        ∧ (getLeftCalibrationValuesForIRSensors balancedWorld demoCalibrator).hw.cmds
            = demoCalibrator.hw.cmds :=
  ⟨fun _ _ => rfl, balanced_left_is_good balancedWorld true 0 demoCalibrator (fun _ _ => rfl)⟩

/-- C5. Whenever its side alignment finishes, `leftToCorrectBack` returns with
`backLeftCalibrated` decreased and `backRightCalibrated` increased by
`a = round(LEFT_CORRECT_MULTIPLIER * (m - g) / 2)`, where `m` is the first left
mean distance the operation measures and `g` the stored `goodDistanceForLeft`;
`a` is an integer nearest to `(m - g) / 10`, and `g = 300`, `m = 320` give
`a = 2`. -/
theorem leftToCorrectBack_shifts_back_targets (w : World) (absTwice : Bool) (fuel : Nat)
    (c : Calibrator)
    (hfin : (sideLoop w absTwice Pin.IR_L1 Pin.IR_L2 c.leftCalibrationOffset fuel
      (leftMeanDistance w c.hw).2).finished = true) :
    (∃ c1, leftToCorrectBack w absTwice fuel c = some c1
      ∧ c1.backLeftCalibrated = c.backLeftCalibrated - roundToLong (LEFT_CORRECT_MULTIPLIER *
          (((leftMeanDistance w c.hw).1 - c.goodDistanceForLeft : Int) : ℚ) / 2)
      ∧ c1.backRightCalibrated = c.backRightCalibrated + roundToLong (LEFT_CORRECT_MULTIPLIER *
          (((leftMeanDistance w c.hw).1 - c.goodDistanceForLeft : Int) : ℚ) / 2))
    ∧ |(roundToLong (LEFT_CORRECT_MULTIPLIER *
          (((leftMeanDistance w c.hw).1 - c.goodDistanceForLeft : Int) : ℚ) / 2) : ℚ)
        - (((leftMeanDistance w c.hw).1 - c.goodDistanceForLeft : Int) : ℚ) / 10| ≤ 1 / 2
    ∧ roundToLong (LEFT_CORRECT_MULTIPLIER * (((320 : Int) - 300 : Int) : ℚ) / 2) = 2 := by
  refine ⟨?_, ?_, ?_⟩
  · obtain ⟨token, h1, hc⟩ := calibrateWithIR_L_of_finished w absTwice fuel
      { c with leftDistanceAfterOneForward := (leftMeanDistance w c.hw).1,
               hw := (leftMeanDistance w c.hw).2 } hfin
    simp only [leftToCorrectBack, hc]
    exact ⟨_, rfl, rfl, rfl⟩
  · have h := roundToLong_nearest (LEFT_CORRECT_MULTIPLIER *
      (((leftMeanDistance w c.hw).1 - c.goodDistanceForLeft : Int) : ℚ) / 2)
    have e : LEFT_CORRECT_MULTIPLIER *
        (((leftMeanDistance w c.hw).1 - c.goodDistanceForLeft : Int) : ℚ) / 2
        = (((leftMeanDistance w c.hw).1 - c.goodDistanceForLeft : Int) : ℚ) / 10 := by
      simp only [LEFT_CORRECT_MULTIPLIER]
      ring
    rw [← e]
    exact h
  · norm_num [roundToLong, truncToInt, LEFT_CORRECT_MULTIPLIER]
    rfl

set_option maxRecDepth 100000 in
/-- Worked instance of C5: the first left mean distance is 105 and the good
distance 50, so the back targets 40 and 40 become 34 and 46; the alignment
issues one pivot before it finishes. -/
theorem leftToCorrectBack_shifts_back_targets_witness :
    (sideLoop demoWorld false Pin.IR_L1 Pin.IR_L2 demoCalibrator.leftCalibrationOffset 3
      (leftMeanDistance demoWorld demoCalibrator.hw).2).finished = true
    ∧ ∃ c1, leftToCorrectBack demoWorld false 3 demoCalibrator = some c1
        ∧ c1.backLeftCalibrated = 34 ∧ c1.backRightCalibrated = 46 := by
  have hfin : (sideLoop demoWorld false Pin.IR_L1 Pin.IR_L2 demoCalibrator.leftCalibrationOffset 3
      (leftMeanDistance demoWorld demoCalibrator.hw).2).finished = true := by decide
  obtain ⟨c1, h1, h2, h3⟩ :=
    (leftToCorrectBack_shifts_back_targets demoWorld false 3 demoCalibrator hfin).1
  have hm : (leftMeanDistance demoWorld demoCalibrator.hw).1 = 105 := by decide
  rw [hm] at h2 h3
  exact ⟨hfin, c1, h1, h2.trans (by decide!), h3.trans (by decide!)⟩

/-- C6. With `0 ≤ MIN_MOTOR_POWER < MAX_MOTOR_POWER`, after the ratio update of an
iteration of the loop of `go`, whatever the previous ratio and the encoder
readings, `slaveToMasterRatio` lies between `MIN / (MIN + range / 6)` and
`MAX / (MAX - range / 6)`, where `range = MAX - MIN`. -/
theorem ratio_within_bounds_after_update (cfg : RobotSpecs) (w : World) (direction : PerMotor)
    (targetDistance : Int) (s : GoState) (h : Hw)
    (hmin : 0 ≤ cfg.MIN_MOTOR_POWER) (hlt : cfg.MIN_MOTOR_POWER < cfg.MAX_MOTOR_POWER) :
    (cfg.MIN_MOTOR_POWER : ℚ) /
        ((cfg.MIN_MOTOR_POWER : ℚ) + ((cfg.MAX_MOTOR_POWER : ℚ) - cfg.MIN_MOTOR_POWER) / 6)
      ≤ (goBody cfg w direction targetDistance s h).m.slaveToMasterRatio
    ∧ (goBody cfg w direction targetDistance s h).m.slaveToMasterRatio
      ≤ (cfg.MAX_MOTOR_POWER : ℚ) /
        ((cfg.MAX_MOTOR_POWER : ℚ) - ((cfg.MAX_MOTOR_POWER : ℚ) - cfg.MIN_MOTOR_POWER) / 6) := by
  have h0 : (0 : ℚ) ≤ cfg.MIN_MOTOR_POWER := by exact_mod_cast hmin
  have h1 : (cfg.MIN_MOTOR_POWER : ℚ) < cfg.MAX_MOTOR_POWER := by exact_mod_cast hlt
  have hlo : (cfg.MIN_MOTOR_POWER : ℚ) /
      ((cfg.MIN_MOTOR_POWER : ℚ) + ((cfg.MAX_MOTOR_POWER : ℚ) - cfg.MIN_MOTOR_POWER) / 6)
      ≤ 1 := by
    rw [div_le_one (by linarith)]
    linarith
  have hhi : (1 : ℚ) ≤ (cfg.MAX_MOTOR_POWER : ℚ) /
      ((cfg.MAX_MOTOR_POWER : ℚ) - ((cfg.MAX_MOTOR_POWER : ℚ) - cfg.MIN_MOTOR_POWER) / 6) := by
    rw [one_le_div (by linarith)]
    linarith
  simp only [goBody, updateRatio, ratioLowerBound, ratioUpperBound, NOC, Int.cast_sub]
  exact ⟨le_max_right _ _, max_le (le_trans (min_le_right _ _) (le_refl _)) (le_trans hlo hhi)⟩

/-- Worked instance of C6: powers 60 to 255, first iteration of a forward move. -/
theorem ratio_within_bounds_after_update_witness :
    0 ≤ demoSpecs.MIN_MOTOR_POWER ∧ demoSpecs.MIN_MOTOR_POWER < demoSpecs.MAX_MOTOR_POWER
    ∧ (demoSpecs.MIN_MOTOR_POWER : ℚ) / ((demoSpecs.MIN_MOTOR_POWER : ℚ)
          + ((demoSpecs.MAX_MOTOR_POWER : ℚ) - demoSpecs.MIN_MOTOR_POWER) / 6)
        ≤ (goBody demoSpecs demoWorld { left := 1, right := 1 } 1000
            { distanceTraveled := { left := 0, right := 0 }, m := demoMovement }
            demoHw).m.slaveToMasterRatio
    ∧ (goBody demoSpecs demoWorld { left := 1, right := 1 } 1000
            { distanceTraveled := { left := 0, right := 0 }, m := demoMovement }
            demoHw).m.slaveToMasterRatio
        ≤ (demoSpecs.MAX_MOTOR_POWER : ℚ) / ((demoSpecs.MAX_MOTOR_POWER : ℚ)
          - ((demoSpecs.MAX_MOTOR_POWER : ℚ) - demoSpecs.MIN_MOTOR_POWER) / 6) :=
  ⟨by decide, by decide,
    ratio_within_bounds_after_update demoSpecs demoWorld { left := 1, right := 1 } 1000
      { distanceTraveled := { left := 0, right := 0 }, m := demoMovement } demoHw
      (by decide) (by decide)⟩

/-- C7. The curve `f(r) = -4r² + 4r` of the power profile of `go` has
`f(0) = f(1) = 0`, `f(1/2) = 1` and `f(r) = f(1 - r)`; the master power before
rounding and clamping is `MIN + range / 6 + range * f(r) * (6 - 2) / 6`, and
for `MIN ≤ MAX` and `r` in `[0, 1]` it lies between `MIN + range / 6` and
`MAX - range / 6`, where `range = MAX - MIN`. -/
theorem power_profile_within_band (MIN MAX : Int) (r : ℚ) (hle : MIN ≤ MAX) (h0 : 0 ≤ r)
    (h1 : r ≤ 1) :
    powerCurve 0 = 0 ∧ powerCurve 1 = 0 ∧ powerCurve (1 / 2) = 1
    ∧ (∀ x, powerCurve x = -4 * x ^ 2 + 4 * x)
    ∧ (∀ x, powerCurve x = powerCurve (1 - x))
    ∧ masterPowerBeforeClamp MIN MAX r
        = (MIN : ℚ) + ((MAX : ℚ) - MIN) / 6 + ((MAX : ℚ) - MIN) * powerCurve r * (6 - 2) / 6
    ∧ (MIN : ℚ) + ((MAX : ℚ) - MIN) / 6 ≤ masterPowerBeforeClamp MIN MAX r
    ∧ masterPowerBeforeClamp MIN MAX r ≤ (MAX : ℚ) - ((MAX : ℚ) - MIN) / 6 := by
  have hr : (0 : ℚ) ≤ (MAX : ℚ) - MIN := by
    have : (MIN : ℚ) ≤ MAX := by exact_mod_cast hle
    linarith
  have hf0 : 0 ≤ powerCurve r := by
    simp only [powerCurve]
    nlinarith [mul_nonneg h0 (sub_nonneg.mpr h1)]
  have hf1 : powerCurve r ≤ 1 := by
    simp only [powerCurve]
    nlinarith [sq_nonneg (2 * r - 1)]
  have hm : masterPowerBeforeClamp MIN MAX r
      = (MIN : ℚ) + ((MAX : ℚ) - MIN) / 6 + ((MAX : ℚ) - MIN) * powerCurve r * (6 - 2) / 6 := by
    simp only [masterPowerBeforeClamp, NOC, Int.cast_sub]
  refine ⟨by norm_num [powerCurve], by norm_num [powerCurve], by norm_num [powerCurve],
    fun x => by simp only [powerCurve]; ring, fun x => by simp only [powerCurve]; ring,
    hm, ?_, ?_⟩
  · rw [hm]
    nlinarith [mul_nonneg hr hf0]
  · rw [hm]
    nlinarith [mul_nonneg hr (sub_nonneg.mpr hf1)]

/-- Worked instance of C7: powers 60 to 255 at a quarter of the way. -/
theorem power_profile_within_band_witness :
    (60 : Int) ≤ 255 ∧ (0 : ℚ) ≤ 1 / 4 ∧ (1 / 4 : ℚ) ≤ 1
    ∧ ((60 : Int) : ℚ) + (((255 : Int) : ℚ) - (60 : Int)) / 6
        ≤ masterPowerBeforeClamp 60 255 (1 / 4)
    ∧ masterPowerBeforeClamp 60 255 (1 / 4)
        ≤ ((255 : Int) : ℚ) - (((255 : Int) : ℚ) - (60 : Int)) / 6 :=
  ⟨by decide, by norm_num, by norm_num,
    (power_profile_within_band 60 255 (1 / 4) (by decide) (by norm_num)
      (by norm_num)).2.2.2.2.2.2⟩

/-- C8. After `getLeftCalibrationValuesForIRSensors`, the corrected difference
computed from the two readings the operation took (`IR_L1` minus `IR_L2` plus
the stored left offset) is 0; after `getRightCalibrationValuesForIRSensors`
the same holds for `IR_R2` minus `IR_R1` plus the stored right offset, the
order `calibrateWithIR` uses. -/
theorem offset_cancels_difference (w : World) (c : Calibrator) :
    (getDifferenceBetweenIRs w Pin.IR_L1 Pin.IR_L2
        (getLeftCalibrationValuesForIRSensors w c).leftCalibrationOffset c.hw).1 = 0
    ∧ (getDifferenceBetweenIRs w Pin.IR_R2 Pin.IR_R1
        (getRightCalibrationValuesForIRSensors w c).rightCalibrationOffset c.hw).1 = 0
    ∧ (getIRValue w Pin.IR_L1 c.hw).1 - (getIRValue w Pin.IR_L2 (getIRValue w Pin.IR_L1 c.hw).2).1
        + (getLeftCalibrationValuesForIRSensors w c).leftCalibrationOffset = 0
    ∧ (getIRValue w Pin.IR_R2 c.hw).1 - (getIRValue w Pin.IR_R1 (getIRValue w Pin.IR_R2 c.hw).2).1
        + (getRightCalibrationValuesForIRSensors w c).rightCalibrationOffset = 0 := by
  simp only [getDifferenceBetweenIRs, getLeftCalibrationValuesForIRSensors,
    getRightCalibrationValuesForIRSensors]
  refine ⟨?_, ?_, ?_, ?_⟩ <;> omega

/-- C9. Whenever the loop of `go` exits, for every movement type, `go` returns and
the last two commands it issued are `setMotorPower(LEFT, 0, 1)` and
`setMotorPower(RIGHT, 0, 1)`, after everything the loop issued. -/
theorem go_ends_with_safety_stop (cfg : RobotSpecs) (w : World) (fuel : Nat)
    (movementType : Direction) (m : MovementInterface)
    (hfin : (goRun cfg w fuel movementType m).finished = true) :
    ∃ m1, go cfg w fuel movementType m = some m1
      ∧ m1.hw.cmds = (goRun cfg w fuel movementType m).state.m.hw.cmds
          ++ [Cmd.setMotorPower Direction.LEFT 0 1, Cmd.setMotorPower Direction.RIGHT 0 1] := by
  simp only [go, hfin, if_true, issue]
  exact ⟨_, rfl, by simp⟩

/-- Worked instance of C9: a forward move of 1000 counts that reaches its target
in three iterations. -/
theorem go_ends_with_safety_stop_witness :
    (goRun demoSpecs demoWorld 5 Direction.FORWARD demoMovement).finished = true
    ∧ ∃ m1, go demoSpecs demoWorld 5 Direction.FORWARD demoMovement = some m1
        ∧ m1.hw.cmds = (goRun demoSpecs demoWorld 5 Direction.FORWARD demoMovement).state.m.hw.cmds
            ++ [Cmd.setMotorPower Direction.LEFT 0 1, Cmd.setMotorPower Direction.RIGHT 0 1] :=
  ⟨by decide, go_ends_with_safety_stop demoSpecs demoWorld 5 Direction.FORWARD demoMovement
    (by decide)⟩

/-- C10. Whenever its side alignment finishes, `leftToCorrectLeft` returns with
`leftCalibrationOffset` increased by `round(LEFT_CORRECT_MULTIPLIER * (n - p))`,
where `n` is the left mean distance it measures and `p` the stored
`leftDistanceAfterOneForward`; and the side alignment it runs is
`sideCalibrationPivotIR` on `IR_L1`, `IR_L2` with this updated offset. -/
theorem leftToCorrectLeft_updates_offset (w : World) (absTwice : Bool) (fuel : Nat)
    (c : Calibrator)
    (hfin : (sideLoop w absTwice Pin.IR_L1 Pin.IR_L2
      (c.leftCalibrationOffset + roundToLong (LEFT_CORRECT_MULTIPLIER *
        (((leftMeanDistance w c.hw).1 - c.leftDistanceAfterOneForward : Int) : ℚ)))
      fuel (leftMeanDistance w c.hw).2).finished = true) :
    (∃ c1, leftToCorrectLeft w absTwice fuel c = some c1
      ∧ c1.leftCalibrationOffset = c.leftCalibrationOffset
          + roundToLong (LEFT_CORRECT_MULTIPLIER *
              (((leftMeanDistance w c.hw).1 - c.leftDistanceAfterOneForward : Int) : ℚ)))
    ∧ (leftToCorrectLeft w absTwice fuel c).map (fun c1 => c1.hw)
        = (sideCalibrationPivotIR w absTwice Pin.IR_L1 Pin.IR_L2
            (c.leftCalibrationOffset + roundToLong (LEFT_CORRECT_MULTIPLIER *
              (((leftMeanDistance w c.hw).1 - c.leftDistanceAfterOneForward : Int) : ℚ)))
            c.goodDistanceForLeft fuel (leftMeanDistance w c.hw).2).map (fun res => res.2) := by
  refine ⟨?_, ?_⟩
  · obtain ⟨token, h1, hc⟩ := calibrateWithIR_L_of_finished w absTwice fuel
      { c with
        leftCalibrationOffset := c.leftCalibrationOffset + roundToLong (LEFT_CORRECT_MULTIPLIER *
          (((leftMeanDistance w c.hw).1 - c.leftDistanceAfterOneForward : Int) : ℚ)),
        hw := (leftMeanDistance w c.hw).2 } hfin
    simp only [leftToCorrectLeft, hc]
    exact ⟨_, rfl, rfl⟩
  · simp only [leftToCorrectLeft, calibrateWithIR_L, Option.map_map]
    rfl

set_option maxRecDepth 100000 in
/-- Worked instance of C10: the measured distance is 105 and the stored one 95,
so the offset 0 becomes 2. -/
theorem leftToCorrectLeft_updates_offset_witness :
    (sideLoop demoWorld false Pin.IR_L1 Pin.IR_L2
      (demoCalibrator.leftCalibrationOffset + roundToLong (LEFT_CORRECT_MULTIPLIER *
        (((leftMeanDistance demoWorld demoCalibrator.hw).1
          - demoCalibrator.leftDistanceAfterOneForward : Int) : ℚ)))
      3 (leftMeanDistance demoWorld demoCalibrator.hw).2).finished = true
    ∧ ∃ c1, leftToCorrectLeft demoWorld false 3 demoCalibrator = some c1
        ∧ c1.leftCalibrationOffset = 2 := by
  have hfin : (sideLoop demoWorld false Pin.IR_L1 Pin.IR_L2
      (demoCalibrator.leftCalibrationOffset + roundToLong (LEFT_CORRECT_MULTIPLIER *
        (((leftMeanDistance demoWorld demoCalibrator.hw).1
          - demoCalibrator.leftDistanceAfterOneForward : Int) : ℚ)))
      3 (leftMeanDistance demoWorld demoCalibrator.hw).2).finished = true := by decide!
  obtain ⟨c1, h1, h2⟩ :=
    (leftToCorrectLeft_updates_offset demoWorld false 3 demoCalibrator hfin).1
  exact ⟨hfin, c1, h1, h2.trans (by decide!)⟩

set_option maxRecDepth 100000 in
/-- C11, counterexample. With every sample at 320 and a good left distance of 220 the
distance measured after the loop is 320, exactly `THRESHOLD_FOR_SIDE_DISTANCE`
away from the good distance, and `calibrateWithIR("L")` returns "0". -/
theorem side_distance_at_threshold_is_rejected :
    (sideLoop balancedWorld false Pin.IR_L1 Pin.IR_L2 edgeCalibrator.leftCalibrationOffset 0
      edgeCalibrator.hw).finished = true
    ∧ (leftMeanDistance balancedWorld
        (sideLoop balancedWorld false Pin.IR_L1 Pin.IR_L2 edgeCalibrator.leftCalibrationOffset 0
          edgeCalibrator.hw).hw).1 = 320
    ∧ |(320 : Int) - edgeCalibrator.goodDistanceForLeft| ≤ THRESHOLD_FOR_SIDE_DISTANCE
    ∧ (calibrateWithIR balancedWorld false 0 "L" edgeCalibrator).map (fun res => res.1)
        = some "0" := by
  decide

/-- C11, amended. Whenever the loop of `sideCalibrationPivotIR` finishes, the
operation returns true exactly when `|distance - goodDistance| < 100`, strictly,
where `distance` is the truncated mean of the two readings taken after the
loop; `calibrateWithIR` turns true into "1" and false into "0" for the
selectors "L" and "R". -/
theorem side_alignment_result_is_strict (w : World) (absTwice : Bool) (l r : Pin)
    (offset good : Int) (fuel : Nat) (h : Hw)
    (hfin : (sideLoop w absTwice l r offset fuel h).finished = true) :
    (∃ h1, sideCalibrationPivotIR w absTwice l r offset good fuel h
      = some (decide (|Int.tdiv ((getIRValue w l (sideLoop w absTwice l r offset fuel h).hw).1
            + (getIRValue w r
                (getIRValue w l (sideLoop w absTwice l r offset fuel h).hw).2).1) 2 - good|
          < 100), h1))
    ∧ THRESHOLD_FOR_SIDE_DISTANCE = 100
    ∧ (∀ c : Calibrator, calibrateWithIR w absTwice fuel "L" c
        = (sideCalibrationPivotIR w absTwice Pin.IR_L1 Pin.IR_L2 c.leftCalibrationOffset
            c.goodDistanceForLeft fuel c.hw).map
          (fun res => (if res.1 = true then "1" else "0", { c with hw := res.2 })))
    ∧ (∀ c : Calibrator, calibrateWithIR w absTwice fuel "R" c
        = (sideCalibrationPivotIR w absTwice Pin.IR_R2 Pin.IR_R1 c.rightCalibrationOffset
            c.goodDistanceForRight fuel c.hw).map
          (fun res => (if res.1 = true then "1" else "0", { c with hw := res.2 }))) := by
  refine ⟨?_, rfl, ?_, ?_⟩
  · simp only [sideCalibrationPivotIR, hfin, if_true, THRESHOLD_FOR_SIDE_DISTANCE]
    exact ⟨_, rfl⟩
  · intro c
    rw [calibrateWithIR, if_pos (by decide)]
    rfl
  · intro c
    rw [calibrateWithIR, if_neg (by decide), if_pos (by decide)]
    rfl

set_option maxRecDepth 100000 in
/-- Worked instance of C11: an alignment on the demo world that pivots twice and
then measures a distance of 50. -/
theorem side_alignment_result_is_strict_witness :
    (sideLoop demoWorld false Pin.IR_L1 Pin.IR_L2 0 3 demoHw).finished = true
    ∧ ∃ h1, sideCalibrationPivotIR demoWorld false Pin.IR_L1 Pin.IR_L2 0 50 3 demoHw
      = some (decide (|Int.tdiv ((getIRValue demoWorld Pin.IR_L1
              (sideLoop demoWorld false Pin.IR_L1 Pin.IR_L2 0 3 demoHw).hw).1
            + (getIRValue demoWorld Pin.IR_L2 (getIRValue demoWorld Pin.IR_L1
                (sideLoop demoWorld false Pin.IR_L1 Pin.IR_L2 0 3 demoHw).hw).2).1) 2 - 50|
          < 100), h1) :=
  ⟨by decide, (side_alignment_result_is_strict demoWorld false Pin.IR_L1 Pin.IR_L2 0 50 3 demoHw
    (by decide)).1⟩

/-- C12. In every run of the loop of `sideCalibrationPivotIR`, finished or not, each
pivot issued comes from a value `d` of `difference` that is not 0, and it is
toward `RIGHT` when `d` is positive and toward `LEFT` when `d` is negative. -/
theorem side_pivot_direction (w : World) (absTwice : Bool) (l r : Pin) (offset : Int)
    (fuel : Nat) (h : Hw) :
    (sideLoop w absTwice l r offset fuel h).hw.cmds
      = h.cmds ++ (sideLoop w absTwice l r offset fuel h).differences.map sidePivot
    ∧ ∀ d ∈ (sideLoop w absTwice l r offset fuel h).differences,
        d ≠ 0
        ∧ (0 < d → ∃ magnitude, sidePivot d = Cmd.smallPivot Direction.RIGHT magnitude)
        ∧ (d < 0 → ∃ magnitude, sidePivot d = Cmd.smallPivot Direction.LEFT magnitude) := by
  refine ⟨sideLoop_cmds w absTwice l r offset fuel h, ?_⟩
  intro d hd
  have hs := (sideLoop_differences w absTwice l r offset fuel h d hd).1
  have hm := sidePivot_magnitude d hs
  refine ⟨?_, ?_, ?_⟩
  · intro h0
    rw [h0] at hs
    exact absurd hs (by decide)
  · intro hpos
    rw [if_pos hpos] at hm
    exact ⟨_, hm⟩
  · intro hneg
    rw [if_neg (by omega)] at hm
    exact ⟨_, hm⟩

/-- C13. `getIRValue` reads the given channel exactly `SAMPLE_COUNT = 300` times and
nothing else, and returns the sum of the 300 values divided by 300 with
truncation; when every one of the 300 values lies between `lo` and `hi`, so
does the result (so it lies between the least and the greatest value read),
and when all of them equal `v` the result is `v`. -/
theorem getIRValue_is_truncated_mean (w : World) (whichPin : Pin) (h : Hw) (lo hi : Int)
    (hb : ∀ i, i < 300 →
      lo ≤ w.analog whichPin (h.analogReads.get whichPin + i)
      ∧ w.analog whichPin (h.analogReads.get whichPin + i) ≤ hi) :
    SAMPLE_COUNT = 300
    ∧ (getIRValue w whichPin h).2 = { h with analogReads := h.analogReads.add whichPin 300 }
    ∧ (getIRValue w whichPin h).2.analogReads.get whichPin = h.analogReads.get whichPin + 300
    ∧ (getIRValue w whichPin h).1
        = Int.tdiv (∑ i in Finset.range 300,
            w.analog whichPin (h.analogReads.get whichPin + i)) 300
    ∧ lo ≤ (getIRValue w whichPin h).1 ∧ (getIRValue w whichPin h).1 ≤ hi
    ∧ (lo = hi → (getIRValue w whichPin h).1 = lo) := by
  have hv : (getIRValue w whichPin h).1
      = Int.tdiv (∑ i in Finset.range 300,
          w.analog whichPin (h.analogReads.get whichPin + i)) 300 := by
    simp only [getIRValue, getIRValueLoop_sum, SAMPLE_COUNT, zero_add]
    rfl
  have hs := sum_range_between (fun i => w.analog whichPin (h.analogReads.get whichPin + i))
    300 lo hi hb
  have hbt := tdiv_between _ lo hi 300 (by decide) hs.1 hs.2
  refine ⟨rfl, ?_, ?_, hv, ?_, ?_, ?_⟩
  · rw [getIRValue_hw]; rfl
  · rw [getIRValue_hw]; exact PinCounts.get_add_same _ _ _
  · rw [hv]; exact hbt.1
  · rw [hv]; exact hbt.2
  · intro e
    rw [hv]
    have := hbt.2
    rw [← e] at this
    exact le_antisymm this hbt.1


/-- Worked instance of C13: 300 samples cycling through 0, .., 6 on `IR_L1`. -/
theorem getIRValue_is_truncated_mean_witness :
    (∀ i, i < 300 →
      (0 : Int) ≤ rampWorld.analog Pin.IR_L1 (demoHw.analogReads.get Pin.IR_L1 + i)
      ∧ rampWorld.analog Pin.IR_L1 (demoHw.analogReads.get Pin.IR_L1 + i) ≤ 6)
    ∧ 0 ≤ (getIRValue rampWorld Pin.IR_L1 demoHw).1
    ∧ (getIRValue rampWorld Pin.IR_L1 demoHw).1 ≤ 6 :=
  ⟨fun i _ => by simp only [rampWorld]; omega,
    (getIRValue_is_truncated_mean rampWorld Pin.IR_L1 demoHw 0 6
      (fun i _ => by simp only [rampWorld]; omega)).2.2.2.2.1,
    (getIRValue_is_truncated_mean rampWorld Pin.IR_L1 demoHw 0 6
      (fun i _ => by simp only [rampWorld]; omega)).2.2.2.2.2.1⟩

set_option maxRecDepth 100000 in
/-- C14, counterexample. With both back readings equal to their targets at entry,
`backCalibrationIR` issues `nudge(0, 0)`; and with the stop button pressed from
the start and both readings 10 above their targets it issues `nudge(1, 1)`. -/
theorem back_alignment_nudges_before_testing :
    (getIRValue demoWorld Pin.IR_BL backGoodCalibrator.hw).1
        = backGoodCalibrator.backLeftCalibrated
    ∧ (getIRValue demoWorld Pin.IR_BR
          (getIRValue demoWorld Pin.IR_BL backGoodCalibrator.hw).2).1
        = backGoodCalibrator.backRightCalibrated
    ∧ (backCalibrationIR demoWorld 1 backGoodCalibrator).map (fun c => c.hw.cmds)
        = some [Cmd.nudge 0 0]
    ∧ stoppedWorld.stopState demoCalibrator.hw.stopPolls = '1'
    ∧ (backCalibrationIR stoppedWorld 1 demoCalibrator).map (fun c => c.hw.cmds)
        = some [Cmd.nudge 1 1] := by
  decide

/-- C14, amended. `backCalibrationIR` issues one `nudge` per execution of the body of
its loop, with the two tiers of the readings of that execution, tier 0
included; the body is executed again only after an execution in which at
least one back sensor was outside `BACK_CALIBRATION_THRESHOLD` and the stop
state polled in that execution was not '1'; the stop button is polled only
in an execution with a sensor outside threshold; a finished run ends on an
execution with both sensors within threshold or with stop state '1'.  With
both readings within threshold at entry the run is one `nudge(0, 0)` and no
poll of the stop button. -/
theorem back_alignment_tests_after_nudge (w : World) (bl br : Int) (fuel : Nat) (l r : Int)
    (h : Hw) :
    (backLoop w bl br fuel l r h).hw.cmds
      = h.cmds ++ (backLoop w bl br fuel l r h).iterations.map
          (fun it => Cmd.nudge (needToMoveLeft it.leftReading bl)
            (needToMoveRight it.rightReading br))
    ∧ (backLoop w bl br (fuel + 1) l r h).iterations.head?
        = some { leftReading := l, rightReading := r,
                 stop := if (rightGood r br && leftGood l bl) = true then none
                         else some (w.stopState h.stopPolls) }
    ∧ (∀ it ∈ (backLoop w bl br fuel l r h).iterations,
        (it.stop = none ↔ (rightGood it.rightReading br && leftGood it.leftReading bl) = true))
    ∧ (∀ it ∈ (backLoop w bl br fuel l r h).iterations.dropLast,
        (rightGood it.rightReading br && leftGood it.leftReading bl) = false
        ∧ ∃ s, it.stop = some s ∧ s ≠ '1')
    ∧ ((backLoop w bl br fuel l r h).finished = true →
        ∃ it, (backLoop w bl br fuel l r h).iterations.getLast? = some it
          ∧ ((rightGood it.rightReading br && leftGood it.leftReading bl) = true
            ∨ it.stop = some '1'))
    ∧ ((rightGood r br && leftGood l bl) = true →
        (backLoop w bl br (fuel + 1) l r h).finished = true
        ∧ (backLoop w bl br (fuel + 1) l r h).hw.cmds = h.cmds ++ [Cmd.nudge 0 0]
        ∧ (backLoop w bl br (fuel + 1) l r h).hw.stopPolls = h.stopPolls)
    ∧ (∀ c : Calibrator, (backCalibrationIR w fuel c).map (fun c1 => c1.hw.cmds)
        = if (backLoop w c.backLeftCalibrated c.backRightCalibrated fuel
              (getIRValue w Pin.IR_BL c.hw).1
              (getIRValue w Pin.IR_BR (getIRValue w Pin.IR_BL c.hw).2).1
              (getIRValue w Pin.IR_BR (getIRValue w Pin.IR_BL c.hw).2).2).finished = true
          then some (c.hw.cmds ++ (backLoop w c.backLeftCalibrated c.backRightCalibrated fuel
              (getIRValue w Pin.IR_BL c.hw).1
              (getIRValue w Pin.IR_BR (getIRValue w Pin.IR_BL c.hw).2).1
              (getIRValue w Pin.IR_BR (getIRValue w Pin.IR_BL c.hw).2).2).iterations.map
            (fun it => Cmd.nudge (needToMoveLeft it.leftReading c.backLeftCalibrated)
              (needToMoveRight it.rightReading c.backRightCalibrated)))
          else none) := by
  refine ⟨backLoop_cmds w bl br fuel l r h, ?_, ?_, ?_, ?_, ?_, ?_⟩
  · rw [backLoop_succ]
    split_ifs <;> rfl
  · exact fun it hit => backLoop_stop_polled w bl br fuel l r h it hit
  · exact fun it hit => backLoop_continues w bl br fuel l r h it hit
  · exact fun hfin => backLoop_last w bl br fuel l r h hfin
  · intro hg
    rw [backLoop_succ, if_pos hg]
    refine ⟨rfl, ?_, ?_⟩
    · simp only [getIRValue_cmds, backNudge_cmds]
      have h1 : needToMoveLeft l bl = 0 := by
        have := hg
        simp only [Bool.and_eq_true, leftGood, rightGood] at this
        simp only [needToMoveLeft]
        split_ifs at this ⊢ <;> simp_all
      have h2 : needToMoveRight r br = 0 := by
        have := hg
        simp only [Bool.and_eq_true, leftGood, rightGood] at this
        simp only [needToMoveRight]
        split_ifs at this ⊢ <;> simp_all
      rw [h1, h2]
    · simp only [getIRValue_hw]
      rfl
  · intro c
    simp only [backCalibrationIR]
    split_ifs with hf
    · simp only [Option.map_some', backLoop_cmds, getIRValue_cmds]
    · rfl

/-- C15, the code at the failing input. In a forward move of 1000 counts whose
left encoder reads 100 below its start value, the traveled distance of the
master after the first iteration is -100, the loop goes on, and the progress
ratio of the second iteration is -1/10, not 0: the master power before the
clamp is 353/10, below `MIN + range / 6 = 185/2`. -/
theorem progress_ratio_negative_when_master_rolls_back :
    (goBody demoSpecs backwardWorld (goDirection Direction.FORWARD) 1000
        { distanceTraveled := { left := 0, right := 0 }, m := demoMovement }
        demoHw).distanceTraveled.left = -100
    ∧ (goRun demoSpecs backwardWorld 1 Direction.FORWARD demoMovement).finished = false
    ∧ progressRatio (-100) 1000 = -1 / 10
    ∧ progressRatio (-100) 1000 < 0
    ∧ masterPowerBeforeClamp 60 255 (progressRatio (-100) 1000) = 353 / 10
    ∧ masterPowerBeforeClamp 60 255 (progressRatio (-100) 1000)
        < ((60 : Int) : ℚ) + (((255 : Int) : ℚ) - (60 : Int)) / 6
    ∧ (goRun demoSpecs backwardWorld 2 Direction.FORWARD demoMovement).state.m.hw.cmds
        = [Cmd.setMotorPower Direction.LEFT 93 1, Cmd.setMotorPower Direction.RIGHT 93 1,
           Cmd.setMotorPower Direction.LEFT 60 1, Cmd.setMotorPower Direction.RIGHT 60 1] := by
  refine ⟨by decide, by decide, by decide!, by decide!, by decide!, by decide!, by decide!⟩

/-- C16. For `0 < MIN < MAX`, a master power `p` in `[MIN + range / 6, MAX - range / 6]`
and a ratio in `[MIN / (MIN + range / 6), MAX / (MAX - range / 6)]`, the slave
power `p * ratio` lies in `[MIN, MAX]`, and so does its rounded value, the
argument `go` gives to `motorSpeedLimit` for the slave; `p` itself lies in
`[MIN, MAX]`. -/
theorem slave_power_within_limits (MIN MAX : Int) (p ratio : ℚ) (hmin : 0 < MIN)
    (hlt : MIN < MAX)
    (hp1 : (MIN : ℚ) + ((MAX : ℚ) - MIN) / 6 ≤ p) (hp2 : p ≤ (MAX : ℚ) - ((MAX : ℚ) - MIN) / 6)
    (hr1 : ratioLowerBound MIN MAX ≤ ratio) (hr2 : ratio ≤ ratioUpperBound MIN MAX) :
    ratioLowerBound MIN MAX = (MIN : ℚ) / ((MIN : ℚ) + ((MAX : ℚ) - MIN) / 6)
    ∧ ratioUpperBound MIN MAX = (MAX : ℚ) / ((MAX : ℚ) - ((MAX : ℚ) - MIN) / 6)
    ∧ (MIN : ℚ) ≤ p * ratio ∧ p * ratio ≤ (MAX : ℚ)
    ∧ MIN ≤ roundToLong (p * ratio) ∧ roundToLong (p * ratio) ≤ MAX
    ∧ (MIN : ℚ) ≤ p ∧ p ≤ (MAX : ℚ)
    ∧ (∀ (cfg : RobotSpecs) (w : World) (direction : PerMotor) (targetDistance : Int)
        (s : GoState) (h : Hw),
        (goBody cfg w direction targetDistance s h).m.hw.cmds
          = h.cmds ++ [Cmd.setMotorPower Direction.LEFT
                (cfg.motorSpeedLimit (roundToLong (masterPowerBeforeClamp cfg.MIN_MOTOR_POWER
                  cfg.MAX_MOTOR_POWER (progressRatio s.distanceTraveled.left targetDistance))))
                direction.left,
              Cmd.setMotorPower Direction.RIGHT
                (cfg.motorSpeedLimit (roundToLong
                  (((cfg.motorSpeedLimit (roundToLong (masterPowerBeforeClamp
                    cfg.MIN_MOTOR_POWER cfg.MAX_MOTOR_POWER
                    (progressRatio s.distanceTraveled.left targetDistance))) : Int) : ℚ)
                    * s.m.slaveToMasterRatio)))
                direction.right]) := by
  have h0 : (0 : ℚ) < MIN := by exact_mod_cast hmin
  have h1 : (MIN : ℚ) < MAX := by exact_mod_cast hlt
  have elo : ratioLowerBound MIN MAX = (MIN : ℚ) / ((MIN : ℚ) + ((MAX : ℚ) - MIN) / 6) := by
    simp only [ratioLowerBound, NOC, Int.cast_sub]
  have ehi : ratioUpperBound MIN MAX = (MAX : ℚ) / ((MAX : ℚ) - ((MAX : ℚ) - MIN) / 6) := by
    simp only [ratioUpperBound, NOC, Int.cast_sub]
  have hd1 : (0 : ℚ) < (MIN : ℚ) + ((MAX : ℚ) - MIN) / 6 := by linarith
  have hd2 : (0 : ℚ) < (MAX : ℚ) - ((MAX : ℚ) - MIN) / 6 := by linarith
  have hlo0 : 0 ≤ ratioLowerBound MIN MAX := by
    rw [elo]
    exact div_nonneg (le_of_lt h0) (le_of_lt hd1)
  have hr0 : 0 ≤ ratio := le_trans hlo0 hr1
  have hA : (MIN : ℚ) ≤ p * ratio := by
    have e : ((MIN : ℚ) + ((MAX : ℚ) - MIN) / 6) * ratioLowerBound MIN MAX = MIN := by
      rw [elo, mul_div_cancel₀ _ (ne_of_gt hd1)]
    calc (MIN : ℚ) = ((MIN : ℚ) + ((MAX : ℚ) - MIN) / 6) * ratioLowerBound MIN MAX := e.symm
      _ ≤ ((MIN : ℚ) + ((MAX : ℚ) - MIN) / 6) * ratio :=
          mul_le_mul_of_nonneg_left hr1 (le_of_lt hd1)
      _ ≤ p * ratio := mul_le_mul_of_nonneg_right hp1 hr0
  have hB : p * ratio ≤ (MAX : ℚ) := by
    have e : ((MAX : ℚ) - ((MAX : ℚ) - MIN) / 6) * ratioUpperBound MIN MAX = MAX := by
      rw [ehi, mul_div_cancel₀ _ (ne_of_gt hd2)]
    calc p * ratio ≤ ((MAX : ℚ) - ((MAX : ℚ) - MIN) / 6) * ratio :=
          mul_le_mul_of_nonneg_right hp2 hr0
      _ ≤ ((MAX : ℚ) - ((MAX : ℚ) - MIN) / 6) * ratioUpperBound MIN MAX :=
          mul_le_mul_of_nonneg_left hr2 (le_of_lt hd2)
      _ = MAX := e
  exact ⟨elo, ehi, hA, hB, roundToLong_ge MIN _ hA, roundToLong_le MAX _ hB, by linarith,
    by linarith, fun cfg w direction targetDistance s h =>
      goBody_cmds cfg w direction targetDistance s h⟩

/-- Worked instance of C16: powers 60 to 255, master power 100, ratio 1. -/
theorem slave_power_within_limits_witness :
    (0 : Int) < 60 ∧ (60 : Int) < 255
    ∧ ((60 : Int) : ℚ) + (((255 : Int) : ℚ) - (60 : Int)) / 6 ≤ 100
    ∧ (100 : ℚ) ≤ ((255 : Int) : ℚ) - (((255 : Int) : ℚ) - (60 : Int)) / 6
    ∧ ratioLowerBound 60 255 ≤ 1 ∧ (1 : ℚ) ≤ ratioUpperBound 60 255
    ∧ (60 : Int) ≤ roundToLong (100 * 1) ∧ roundToLong (100 * 1) ≤ (255 : Int) :=
  ⟨by decide, by decide, by norm_num, by norm_num, by decide!, by decide!,
    (slave_power_within_limits 60 255 100 1 (by decide) (by decide) (by norm_num)
      (by norm_num) (by decide!) (by decide!)).2.2.2.2.1,
    (slave_power_within_limits 60 255 100 1 (by decide) (by decide) (by norm_num)
      (by norm_num) (by decide!) (by decide!)).2.2.2.2.2.1⟩

/-- C17. The blend of the ratio update of `go` is gated by the noise floor: with
slave distance `s` and master distance `m`, the ratio before the clamp is
`W * ratio + (1 - W) * ratio * (m / s)` with `W = 2/5` when `s > 10` and the old
ratio when `s ≤ 10`; the blend gives back the old ratio when `m = s`; the update
is the blend followed by the clamp, so that with `s ≤ 10` a ratio inside the
bounds is unchanged; and the body of the loop stores this update computed
from the distances it has just measured. -/
theorem ratio_blend_gated_by_noise_floor (MIN MAX : Int) (ratio : ℚ) (d : PerMotor)
    (hlo : ratioLowerBound MIN MAX ≤ ratio) (hhi : ratio ≤ ratioUpperBound MIN MAX) :
    WEIGHT_FOR_PREVIOUS_STMR = 2 / 5
    ∧ blendRatio ratio d
        = (if d.right > 10 then
            (2 / 5 : ℚ) * ratio + (1 - 2 / 5) * ratio * ((d.left : ℚ) / (d.right : ℚ))
          else ratio)
    ∧ blendRatio ratio { left := d.right, right := d.right } = ratio
    ∧ updateRatio MIN MAX ratio d
        = max (min (blendRatio ratio d) (ratioUpperBound MIN MAX)) (ratioLowerBound MIN MAX)
    ∧ (d.right ≤ 10 → updateRatio MIN MAX ratio d = ratio)
    ∧ (∀ (cfg : RobotSpecs) (w : World) (direction : PerMotor) (targetDistance : Int)
        (s : GoState) (h : Hw),
        (goBody cfg w direction targetDistance s h).m.slaveToMasterRatio
          = updateRatio cfg.MIN_MOTOR_POWER cfg.MAX_MOTOR_POWER s.m.slaveToMasterRatio
              (goBody cfg w direction targetDistance s h).distanceTraveled) := by
  refine ⟨rfl, ?_, ?_, rfl, ?_, fun _ _ _ _ _ _ => rfl⟩
  · simp only [blendRatio, WEIGHT_FOR_PREVIOUS_STMR]
    split_ifs
    · rw [mul_div_assoc]
    · rfl
  · simp only [blendRatio, WEIGHT_FOR_PREVIOUS_STMR]
    split_ifs with hs
    · have hne : (d.right : ℚ) ≠ 0 := by
        have : (10 : ℚ) < (d.right : ℚ) := by exact_mod_cast hs
        linarith
      field_simp
      ring
    · rfl
  · intro hs
    have hb : blendRatio ratio d = ratio := by
      simp only [blendRatio]
      rw [if_neg (by omega)]
    simp only [updateRatio, hb]
    rw [min_eq_left hhi, max_eq_left hlo]

/-- Worked instance of C17: powers 60 to 255, ratio 1, both wheels at 20 counts. -/
theorem ratio_blend_gated_by_noise_floor_witness :
    ratioLowerBound 60 255 ≤ 1 ∧ (1 : ℚ) ≤ ratioUpperBound 60 255
    ∧ blendRatio 1 { left := 20, right := 20 }
        = (if (20 : Int) > 10 then
            (2 / 5 : ℚ) * 1 + (1 - 2 / 5) * 1 * (((20 : Int) : ℚ) / ((20 : Int) : ℚ))
          else 1) :=
  ⟨by decide!, by decide!,
    (ratio_blend_gated_by_noise_floor 60 255 1 { left := 20, right := 20 } (by decide!)
      (by decide!)).2.1⟩

/-- C18. When the stop state at the first check of the loop of `go` is not '0', for
every movement type and every fuel the body is never executed: `go` returns,
what it added to the commands left by `reset()` is the two zero-power
commands, no encoder was read after `reset()`, and `slaveToMasterRatio` is the
one left by `reset()`.  When the stop state at the first check of the loop of
`sideCalibrationPivotIR` is not '0', the loop finishes without a pivot and the
operation returns with no command issued. -/
theorem stop_at_entry_skips_the_loop (cfg : RobotSpecs) (w : World) (fuel : Nat)
    (movementType : Direction) (m : MovementInterface) (absTwice : Bool) (l r : Pin)
    (offset good : Int) (h : Hw)
    (hgo : w.stopState (cfg.reset m).hw.stopPolls ≠ '0')
    (hside : w.stopState h.stopPolls ≠ '0') :
    ((goRun cfg w fuel movementType m).finished = true
      ∧ (goRun cfg w fuel movementType m).iterations = 0
      ∧ ∃ m1, go cfg w fuel movementType m = some m1
          ∧ m1.hw.cmds = (cfg.reset m).hw.cmds
              ++ [Cmd.setMotorPower Direction.LEFT 0 1, Cmd.setMotorPower Direction.RIGHT 0 1]
          ∧ m1.hw.encoderReads = (cfg.reset m).hw.encoderReads
          ∧ m1.slaveToMasterRatio = (cfg.reset m).slaveToMasterRatio)
    ∧ ((sideLoop w absTwice l r offset fuel h).finished = true
      ∧ (sideLoop w absTwice l r offset fuel h).differences = []
      ∧ ∃ res, sideCalibrationPivotIR w absTwice l r offset good fuel h = some res
          ∧ res.2.cmds = h.cmds) := by
  constructor
  · have hc := goCondition_of_stop w (goTargetDistance cfg movementType)
      ((millis w (cfg.reset m).hw).1 + MOVE_TIME_LIMIT)
      { distanceTraveled := { left := 0, right := 0 },
        m := { cfg.reset m with hw := (millis w (cfg.reset m).hw).2 } } hgo
    have hrun : goRun cfg w fuel movementType m
        = { finished := true
            iterations := 0
            state :=
              { distanceTraveled := { left := 0, right := 0 }
                m :=
                  { cfg.reset m with
                    hw := (goCondition w (goTargetDistance cfg movementType)
                      ((millis w (cfg.reset m).hw).1 + MOVE_TIME_LIMIT)
                      { distanceTraveled := { left := 0, right := 0 },
                        m := { cfg.reset m with hw := (millis w (cfg.reset m).hw).2 } }).2 } } } := by
      simp only [goRun]
      cases fuel with
      | zero => rw [goLoop_zero, hc.1]; rfl
      | succ n => rw [goLoop_succ, hc.1]; rfl
    refine ⟨by rw [hrun], by rw [hrun], ?_⟩
    simp only [go, hrun, if_true, issue]
    refine ⟨_, rfl, ?_, ?_, rfl⟩
    · simp only [hc.2.1]
      simp [millis]
    · simp only [hc.2.2]
      rfl
  · have hc := sideLoopCondition_of_stop w absTwice l r offset h hside
    have hrun : sideLoop w absTwice l r offset fuel h
        = { finished := true, differences := [],
            hw := (sideLoopCondition w absTwice l r offset h).hw } := by
      cases fuel with
      | zero => rw [sideLoop_zero, hc]; rfl
      | succ n => rw [sideLoop_succ, hc]; rfl
    refine ⟨by rw [hrun], by rw [hrun], ?_⟩
    simp only [sideCalibrationPivotIR, hrun, if_true]
    exact ⟨_, rfl, by simp only [getIRValue_cmds, sideLoopCondition_cmds]⟩

set_option maxRecDepth 100000 in
/-- Worked instance of C18: a forward move and a left alignment with the stop
button pressed from the start. -/
theorem stop_at_entry_skips_the_loop_witness :
    stoppedWorld.stopState (demoSpecs.reset demoMovement).hw.stopPolls ≠ '0'
    ∧ stoppedWorld.stopState demoHw.stopPolls ≠ '0'
    ∧ (goRun demoSpecs stoppedWorld 3 Direction.FORWARD demoMovement).iterations = 0
    ∧ (sideLoop stoppedWorld false Pin.IR_L1 Pin.IR_L2 20 3 demoHw).differences = [] :=
  ⟨by decide, by decide,
    (stop_at_entry_skips_the_loop demoSpecs stoppedWorld 3 Direction.FORWARD demoMovement false
      Pin.IR_L1 Pin.IR_L2 20 50 demoHw (by decide) (by decide)).1.2.1,
    (stop_at_entry_skips_the_loop demoSpecs stoppedWorld 3 Direction.FORWARD demoMovement false
      Pin.IR_L1 Pin.IR_L2 20 50 demoHw (by decide) (by decide)).2.2.1⟩

/-- C19. Whenever its side alignment finishes, `leftToCorrectBack` returns with the
sum `backLeftCalibrated + backRightCalibrated` unchanged and with both offsets
and both good distances unchanged: the only calibration fields it changes are
the two back targets and `leftDistanceAfterOneForward`. -/
theorem leftToCorrectBack_preserves_target_sum (w : World) (absTwice : Bool) (fuel : Nat)
    (c : Calibrator)
    (hfin : (sideLoop w absTwice Pin.IR_L1 Pin.IR_L2 c.leftCalibrationOffset fuel
      (leftMeanDistance w c.hw).2).finished = true) :
    ∃ c1, leftToCorrectBack w absTwice fuel c = some c1
      ∧ c1.backLeftCalibrated + c1.backRightCalibrated
          = c.backLeftCalibrated + c.backRightCalibrated
      ∧ c1.leftCalibrationOffset = c.leftCalibrationOffset
      ∧ c1.rightCalibrationOffset = c.rightCalibrationOffset
      ∧ c1.goodDistanceForLeft = c.goodDistanceForLeft
      ∧ c1.goodDistanceForRight = c.goodDistanceForRight := by
  obtain ⟨token, h1, hc⟩ := calibrateWithIR_L_of_finished w absTwice fuel
    { c with leftDistanceAfterOneForward := (leftMeanDistance w c.hw).1,
             hw := (leftMeanDistance w c.hw).2 } hfin
  simp only [leftToCorrectBack, hc]
  exact ⟨_, rfl, by simp only; omega, rfl, rfl, rfl, rfl⟩

set_option maxRecDepth 100000 in
/-- Worked instance of C19: the demo calibrator on the demo world, with the `abs`
that measures twice. -/
theorem leftToCorrectBack_preserves_target_sum_witness :
    (sideLoop demoWorld true Pin.IR_L1 Pin.IR_L2 demoCalibrator.leftCalibrationOffset 2
      (leftMeanDistance demoWorld demoCalibrator.hw).2).finished = true
    ∧ ∃ c1, leftToCorrectBack demoWorld true 2 demoCalibrator = some c1
      ∧ c1.backLeftCalibrated + c1.backRightCalibrated
          = demoCalibrator.backLeftCalibrated + demoCalibrator.backRightCalibrated
      ∧ c1.leftCalibrationOffset = demoCalibrator.leftCalibrationOffset
      ∧ c1.rightCalibrationOffset = demoCalibrator.rightCalibrationOffset
      ∧ c1.goodDistanceForLeft = demoCalibrator.goodDistanceForLeft
      ∧ c1.goodDistanceForRight = demoCalibrator.goodDistanceForRight :=
  ⟨by decide, leftToCorrectBack_preserves_target_sum demoWorld true 2 demoCalibrator
    (by decide)⟩

/-- C20. Whenever `calibrateWithIR` returns for the selector "L", "R" or "B", the seven
calibration fields are unchanged, neither the clock nor an encoder was read,
and the commands issued are `smallPivot` and `nudge` commands only. -/
theorem alignment_leaves_profile_unchanged (w : World) (absTwice : Bool) (fuel : Nat)
    (side : String) (c : Calibrator)
    (hside : side = "L" ∨ side = "R" ∨ side = "B")
    (hret : (calibrateWithIR w absTwice fuel side c).isSome = true) :
    ∃ token c1, calibrateWithIR w absTwice fuel side c = some (token, c1)
      ∧ c1.leftCalibrationOffset = c.leftCalibrationOffset
      ∧ c1.rightCalibrationOffset = c.rightCalibrationOffset
      ∧ c1.goodDistanceForLeft = c.goodDistanceForLeft
      ∧ c1.goodDistanceForRight = c.goodDistanceForRight
      ∧ c1.leftDistanceAfterOneForward = c.leftDistanceAfterOneForward
      ∧ c1.backLeftCalibrated = c.backLeftCalibrated
      ∧ c1.backRightCalibrated = c.backRightCalibrated
      ∧ c1.hw.clockReads = c.hw.clockReads
      ∧ c1.hw.encoderReads = c.hw.encoderReads
      ∧ ∃ issued, c1.hw.cmds = c.hw.cmds ++ issued
          ∧ ∀ x ∈ issued, (∃ direction k, x = Cmd.smallPivot direction k)
              ∨ (∃ a b, x = Cmd.nudge a b) := by
  have hsideCal : ∀ (l r : Pin) (offset good : Int),
      (sideCalibrationPivotIR w absTwice l r offset good fuel c.hw).isSome = true →
      ∃ b h1, sideCalibrationPivotIR w absTwice l r offset good fuel c.hw = some (b, h1)
        ∧ h1.clockReads = c.hw.clockReads ∧ h1.encoderReads = c.hw.encoderReads
        ∧ ∃ issued, h1.cmds = c.hw.cmds ++ issued
            ∧ ∀ x ∈ issued, (∃ direction k, x = Cmd.smallPivot direction k)
                ∨ (∃ a b, x = Cmd.nudge a b) := by
    intro l r offset good hs
    simp only [sideCalibrationPivotIR] at hs ⊢
    split_ifs at hs ⊢ with hf
    · have hu := sideLoop_untouched w absTwice l r offset fuel c.hw
      refine ⟨_, _, rfl, ?_, ?_,
        (sideLoop w absTwice l r offset fuel c.hw).differences.map sidePivot, ?_, ?_⟩
      · simp only [getIRValue_hw]
        exact hu.1
      · simp only [getIRValue_hw]
        exact hu.2
      · simp only [getIRValue_cmds]
        exact sideLoop_cmds w absTwice l r offset fuel c.hw
      · intro x hx
        obtain ⟨d, _, rfl⟩ := List.mem_map.mp hx
        exact Or.inl (sidePivot_is_smallPivot d)
    · simp at hs
  rcases hside with rfl | rfl | rfl
  · rw [calibrateWithIR, if_pos (by decide)] at hret ⊢
    simp only [calibrateWithIR_L, Option.isSome_map'] at hret ⊢
    obtain ⟨b, h1, e, hu1, hu2, issued, hc1, hc2⟩ := hsideCal _ _ _ _ hret
    rw [e]
    exact ⟨_, _, rfl, rfl, rfl, rfl, rfl, rfl, rfl, rfl, hu1, hu2, issued, hc1, hc2⟩
  · rw [calibrateWithIR, if_neg (by decide), if_pos (by decide)] at hret ⊢
    simp only [Option.isSome_map'] at hret ⊢
    obtain ⟨b, h1, e, hu1, hu2, issued, hc1, hc2⟩ := hsideCal _ _ _ _ hret
    rw [e]
    exact ⟨_, _, rfl, rfl, rfl, rfl, rfl, rfl, rfl, rfl, hu1, hu2, issued, hc1, hc2⟩
  · rw [calibrateWithIR, if_neg (by decide), if_neg (by decide), if_pos (by decide)] at hret ⊢
    simp only [backCalibrationIR, Option.isSome_map'] at hret ⊢
    split_ifs at hret ⊢ with hf
    · have hu := backLoop_untouched w c.backLeftCalibrated c.backRightCalibrated fuel
        (getIRValue w Pin.IR_BL c.hw).1
        (getIRValue w Pin.IR_BR (getIRValue w Pin.IR_BL c.hw).2).1
        (getIRValue w Pin.IR_BR (getIRValue w Pin.IR_BL c.hw).2).2
      refine ⟨_, _, rfl, rfl, rfl, rfl, rfl, rfl, rfl, rfl, ?_, ?_,
        (backLoop w c.backLeftCalibrated c.backRightCalibrated fuel
          (getIRValue w Pin.IR_BL c.hw).1
          (getIRValue w Pin.IR_BR (getIRValue w Pin.IR_BL c.hw).2).1
          (getIRValue w Pin.IR_BR (getIRValue w Pin.IR_BL c.hw).2).2).iterations.map
          (fun it => Cmd.nudge (needToMoveLeft it.leftReading c.backLeftCalibrated)
            (needToMoveRight it.rightReading c.backRightCalibrated)), ?_, ?_⟩
      · rw [hu.1]
        simp only [getIRValue_hw]
        rfl
      · rw [hu.2]
        simp only [getIRValue_hw]
        rfl
      · simp only [backLoop_cmds, getIRValue_cmds]
      · intro x hx
        obtain ⟨it, _, rfl⟩ := List.mem_map.mp hx
        exact Or.inr ⟨_, _, rfl⟩
    · simp at hret

set_option maxRecDepth 100000 in
/-- Worked instance of C20: a back alignment on the demo world with both back
targets at the value the sensors read. -/
theorem alignment_leaves_profile_unchanged_witness :
    ("B" = "L" ∨ "B" = "R" ∨ "B" = "B")
    ∧ (calibrateWithIR demoWorld false 2 "B" backGoodCalibrator).isSome = true
    ∧ ∃ token c1, calibrateWithIR demoWorld false 2 "B" backGoodCalibrator = some (token, c1)
      ∧ c1.leftCalibrationOffset = backGoodCalibrator.leftCalibrationOffset
      ∧ c1.rightCalibrationOffset = backGoodCalibrator.rightCalibrationOffset
      ∧ c1.goodDistanceForLeft = backGoodCalibrator.goodDistanceForLeft
      ∧ c1.goodDistanceForRight = backGoodCalibrator.goodDistanceForRight
      ∧ c1.leftDistanceAfterOneForward = backGoodCalibrator.leftDistanceAfterOneForward
      ∧ c1.backLeftCalibrated = backGoodCalibrator.backLeftCalibrated
      ∧ c1.backRightCalibrated = backGoodCalibrator.backRightCalibrated
      ∧ c1.hw.clockReads = backGoodCalibrator.hw.clockReads
      ∧ c1.hw.encoderReads = backGoodCalibrator.hw.encoderReads
      ∧ ∃ issued, c1.hw.cmds = backGoodCalibrator.hw.cmds ++ issued
          ∧ ∀ x ∈ issued, (∃ direction k, x = Cmd.smallPivot direction k)
              ∨ (∃ a b, x = Cmd.nudge a b) :=
  ⟨by decide, by decide,
    alignment_leaves_profile_unchanged demoWorld false 2 "B" backGoodCalibrator
      (by decide) (by decide)⟩

end TokenSorter
